import Mathlib

/-!
Shallow embedding of the gtfs-go storage and scheduling engine.

Byte strings are `List Nat` (each entry a byte value 0..255).  Go strings and
`Key`s are byte sequences, so they are embedded as `List Nat` too.  Floating
point coordinates are embedded by their IEEE-754 bit patterns (Go stores them
with `math.Float64bits` / `math.Float64frombits`, which is the identity on bit
patterns), so a coordinate component is a `Nat < 2^64`.

Decoders are embedded as prefix parsers `Bytes → Except String (α × Bytes)`
returning the value and the unconsumed tail; each Go `Decode` method is the
corresponding parser run to completion with the Go code's trailing-data check.
-/

namespace GtfsGo

abbrev Bytes := List Nat

abbrev Key := Bytes

/-- Byte widths: `lenBytes = 4`, `timeBytes = 8`, `boolBytes = 1`, `float64Bytes = 8`,
`uint8Bytes = 1`, `uint32Bytes = 4` in the source; the byte widths appear
directly in the encoders below. -/
def U32 : Nat := 4294967296

def U64 : Nat := 18446744073709551616

/-- Big-endian 4-byte encoding of `uint32(n)` (mirrors
`binary.BigEndian.PutUint32(data, uint32(n))`, including the `uint32`
truncation of the Go conversion). -/
def u32be (n : Nat) : Bytes :=
  [n % U32 / 16777216 % 256, n % U32 / 65536 % 256, n % U32 / 256 % 256, n % U32 % 256]

/-- Big-endian 8-byte encoding of `uint64(n)` (mirrors
`binary.BigEndian.PutUint64`). -/
def u64be (n : Nat) : Bytes :=
  [n % U64 / 72057594037927936 % 256, n % U64 / 281474976710656 % 256,
   n % U64 / 1099511627776 % 256, n % U64 / 4294967296 % 256,
   n % U64 / 16777216 % 256, n % U64 / 65536 % 256, n % U64 / 256 % 256, n % U64 % 256]

/-- Two's-complement 8-byte big-endian encoding of an `int64` value
(mirrors `binary.BigEndian.PutUint64(data, uint64(x))`). -/
def i64be (x : Int) : Bytes :=
  u64be (x % 18446744073709551616).toNat

/-- One byte, `1` for `true` and `0` for `false` (mirrors the Go pattern
`if b { data[offset] = 1 } else { data[offset] = 0 }`). -/
def boolByte (b : Bool) : Bytes :=
  if b then [1] else [0]

/-- A 4-byte length prefix followed by the raw bytes (the Go layout for every
variable-length string field). -/
def lp (s : Bytes) : Bytes :=
  u32be s.length ++ s

/-- A prefix parser: returns the parsed value and the unconsumed tail, or a
decode error.  Each Go `Decode` body, which walks an offset over `data` with
bounds checks, is embedded as such a parser. -/
def P (α : Type) : Type :=
  Bytes → Except String (α × Bytes)

def ppure {α : Type} (a : α) : P α :=
  fun l => .ok (a, l)

def pfail {α : Type} (e : String) : P α :=
  fun _ => .error e

def pbind {α β : Type} (p : P α) (f : α → P β) : P β :=
  fun l =>
    match p l with
    | .ok (a, r) => f a r
    | .error e => .error e

/-- Read exactly `n` bytes (a bounds-checked `data[offset : offset+n]` slice
in the source; the error is the source's per-field message). -/
def readBytes (n : Nat) (msg : String) : P Bytes :=
  fun l => if n ≤ l.length then .ok (l.take n, l.drop n) else .error msg

/-- Read one byte (a bounds-checked `data[offset]` in the source). -/
def readU8 (msg : String) : P Nat :=
  fun l =>
    match l with
    | b :: r => .ok (b, r)
    | [] => .error msg

/-- Read a big-endian `uint32` (`binary.BigEndian.Uint32` after the source's
`offset+lenBytes > len(data)` check). -/
def readU32 (msg : String) : P Nat :=
  fun l =>
    match l with
    | b0 :: b1 :: b2 :: b3 :: r => .ok (((b0 * 256 + b1) * 256 + b2) * 256 + b3, r)
    | _ => .error msg

/-- Read a big-endian `uint64`. -/
def readU64 (msg : String) : P Nat :=
  fun l =>
    match l with
    | b0 :: b1 :: b2 :: b3 :: b4 :: b5 :: b6 :: b7 :: r =>
        .ok ((((((((b0 * 256 + b1) * 256 + b2) * 256 + b3) * 256 + b4) * 256 + b5) * 256
          + b6) * 256 + b7), r)
    | _ => .error msg

/-- Read an `int64` stored as its two's-complement `uint64`
(`int64(binary.BigEndian.Uint64(...))` in the source). -/
def readI64 (msg : String) : P Int :=
  pbind (readU64 msg) (fun n =>
    ppure (if n < 9223372036854775808 then (n : Int) else (n : Int) - 18446744073709551616))

/-- Read a Go bool byte: `1` is `true`, `0` is `false`, anything else is the
source's invalid-bool error (`if data[offset] == 1 ... else if ... == 0 ...
else return error`). -/
def readBool (msgShort msgBad : String) : P Bool :=
  fun l =>
    match l with
    | 1 :: r => .ok (true, r)
    | 0 :: r => .ok (false, r)
    | _ :: _ => .error msgBad
    | [] => .error msgShort

/-- Read a 4-byte length prefix then that many bytes (the Go pattern for every
string field: read the `uint32` length, bounds-check, slice the content). -/
def readStr (msgLen msgContent : String) : P Bytes :=
  pbind (readU32 msgLen) (fun n => readBytes n msgContent)

/-- Run a parser on a whole buffer; the source's final
`if offset != len(data)` trailing-data check becomes the emptiness check on
the unconsumed tail. -/
def runFull {α : Type} (p : P α) (trailMsg : String) (data : Bytes) : Except String α :=
  match p data with
  | .ok (a, rest) => if rest.isEmpty then .ok a else .error trailMsg
  | .error e => .error e

/-- Lift a finished `Except` result into a parser consuming nothing (used to
re-raise the result of a nested full decode, as the source does when an inner
`Decode` is run on an exactly-sized slice). -/
def pofExcept {α : Type} (r : Except String α) : P α :=
  match r with
  | .ok a => ppure a
  | .error e => pfail e

/-- Read a 4-byte byte-length, slice that many bytes, and run `p` on the slice
requiring full consumption (the source's pattern in `TripStopArray.Decode`:
per-element data length, exact sub-slice, inner `Decode` with its own
trailing check). -/
def subParse {α : Type} (p : P α) (msgLen msgContent trailMsg : String) : P α :=
  pbind (readU32 msgLen) (fun n =>
    pbind (readBytes n msgContent) (fun s =>
      pofExcept (runFull p trailMsg s)))

/-- Run `p` exactly `n` times, collecting the results in order (the source's
`for i := uint32(0); i < count; i++` decode loops). -/
def repeatP {α : Type} (p : P α) : Nat → P (List α)
  | 0 => ppure []
  | n + 1 =>
      pbind p (fun a =>
        pbind (repeatP p n) (fun rest =>
          ppure (a :: rest)))

/-- Read a 4-byte element count then that many elements. -/
def countedP {α : Type} (p : P α) (msgCount : String) : P (List α) :=
  pbind (readU32 msgCount) (fun n => repeatP p n)

/-- Predicate `Consumes p c a`: parser `p` consumes exactly the bytes `c` from the front
of any input and returns `a`. -/
def Consumes {α : Type} (p : P α) (c : Bytes) (a : α) : Prop :=
  ∀ r : Bytes, p (c ++ r) = .ok (a, r)

/-- A parser is lawful when every successful parse is determined by a consumed
prefix (so appended bytes are left untouched) and every strict prefix of a
consumable byte string is rejected (so truncation is detected). -/
structure Law {α : Type} (p : P α) : Prop where
  stable : ∀ l a k, p l = .ok (a, k) → ∃ c, l = c ++ k ∧ Consumes p c a
  short : ∀ c a, Consumes p c a → ∀ m, m < c.length → ∃ e, p (c.take m) = .error e

/-! ## Entity data model (source structs, with floats as bit patterns and
`time.Time` dates as their Unix-second values) -/

/-- Source `type Agency struct` of agency.go. -/
structure Agency where
  id : Key
  name : Bytes
  url : Bytes
  timezone : Bytes
deriving DecidableEq, Repr

/-- Source `type Route struct` of route.go. -/
structure Route where
  id : Key
  agencyID : Key
  name : Bytes
  rtype : Nat
  colour : Bytes
  shapeID : Key
  stops : List Key
deriving DecidableEq, Repr

/-- Source `type Coordinate struct` of shared.go; each component is the IEEE-754 bit
pattern the source stores via `math.Float64bits`. -/
structure Coordinate where
  latBits : Nat
  lonBits : Nat
deriving DecidableEq, Repr

/-- Source `type Stop struct` of the stop model. -/
structure Stop where
  id : Key
  code : Bytes
  name : Bytes
  parentID : Key
  location : Coordinate
  locationType : Nat
  supportedModes : Nat
deriving DecidableEq, Repr

/-- Source `type Service struct`: weekday bitmask plus Unix-second start and end
dates. -/
structure Service where
  id : Key
  weekdays : Nat
  startDate : Int
  endDate : Int
deriving DecidableEq, Repr

/-- Source `AddedExceptionType ExceptionType = false` in the source. -/
def AddedExceptionType : Bool := false

/-- Source `RemovedExceptionType ExceptionType = true` in the source. -/
def RemovedExceptionType : Bool := true

/-- Source `type ServiceException struct`: service key, Unix-second date, and the
boolean exception type. -/
structure ServiceException where
  serviceID : Key
  date : Int
  etype : Bool
deriving DecidableEq, Repr

/-- Source `type Shape struct`: an identifier and the coordinate polyline. -/
structure Shape where
  id : Key
  coordinates : List Coordinate
deriving DecidableEq, Repr

/-- Source `type TripStop struct` (`uint` times, boolean timepoint). -/
structure TripStop where
  stopID : Key
  arrivalTime : Nat
  departureTime : Nat
  timepoint : Bool
deriving DecidableEq, Repr

/-- Source `type Trip struct` (boolean direction, ordered stop list). -/
structure Trip where
  id : Key
  routeID : Key
  serviceID : Key
  shapeID : Key
  direction : Bool
  headsign : Bytes
  stops : List TripStop
deriving DecidableEq, Repr

/-! ## Encoders (each mirrors the corresponding Go `Encode` method field by
field; the Go code preallocates a buffer and writes sequentially, which is
concatenation in write order) -/

/-- Source `Agency.Encode`: Name, URL, Timezone, each length-prefixed. -/
def agencyEncode (a : Agency) : Bytes :=
  lp a.name ++ lp a.url ++ lp a.timezone

/-- The per-key body of the `KeyArray.Encode` loop: each key written as
4-byte length plus content. -/
def keyArrayEncodeAux : List Key → Bytes
  | [] => []
  | k :: rest => lp k ++ keyArrayEncodeAux rest

/-- Source `KeyArray.Encode`: 4-byte count, then each key length-prefixed. -/
def keyArrayEncode (ka : List Key) : Bytes :=
  u32be ka.length ++ keyArrayEncodeAux ka

/-- Source `Route.Encode`: AgencyID, Name, Type byte, Colour, ShapeID, then the
encoded Stops `KeyArray`. -/
def routeEncode (r : Route) : Bytes :=
  lp r.agencyID ++ lp r.name ++ [r.rtype % 256] ++ lp r.colour ++ lp r.shapeID ++
    keyArrayEncode r.stops

/-- Source `Coordinate.Encode`: latitude then longitude as 8-byte bit patterns. -/
def coordEncode (c : Coordinate) : Bytes :=
  u64be c.latBits ++ u64be c.lonBits

/-- The body of the `CoordinateArray.Encode` loop. -/
def coordArrayEncodeAux : List Coordinate → Bytes
  | [] => []
  | c :: rest => coordEncode c ++ coordArrayEncodeAux rest

/-- Source `CoordinateArray.Encode`: 4-byte count then each coordinate's 16-byte
encoding. -/
def coordArrayEncode (ca : List Coordinate) : Bytes :=
  u32be ca.length ++ coordArrayEncodeAux ca

/-- Source `Stop.Encode`: Code, Name, ParentID, Location, LocationType byte,
SupportedModes byte. -/
def stopEncode (s : Stop) : Bytes :=
  lp s.code ++ lp s.name ++ lp s.parentID ++ coordEncode s.location ++
    [s.locationType % 256] ++ [s.supportedModes % 256]

/-- Source `Service.Encode`: Weekdays byte, StartDate and EndDate as Unix-second
`int64` values. -/
def serviceEncode (s : Service) : Bytes :=
  [s.weekdays % 256] ++ i64be s.startDate ++ i64be s.endDate

/-- Source `ServiceException.Encode`: ServiceID, Date as Unix-second `int64`, Type
byte. -/
def seEncode (se : ServiceException) : Bytes :=
  lp se.serviceID ++ i64be se.date ++ boolByte se.etype

/-- Source `Shape.Encode`: exactly the encoded coordinate array. -/
def shapeEncode (s : Shape) : Bytes :=
  coordArrayEncode s.coordinates

/-- Source `TripStop.Encode`: StopID, ArrivalTime and DepartureTime as `uint32`,
Timepoint byte. -/
def tripStopEncode (ts : TripStop) : Bytes :=
  lp ts.stopID ++ u32be ts.arrivalTime ++ u32be ts.departureTime ++ boolByte ts.timepoint

/-- The body of the `TripStopArray.Encode` loop: note the extra 4-byte length
of each element's encoding written before the encoding itself. -/
def tripStopArrayEncodeAux : List TripStop → Bytes
  | [] => []
  | ts :: rest => u32be (tripStopEncode ts).length ++ tripStopEncode ts ++
      tripStopArrayEncodeAux rest

/-- Source `TripStopArray.Encode`: 4-byte count, then for each stop a 4-byte byte
length followed by the stop's encoding. -/
def tripStopArrayEncode (tsa : List TripStop) : Bytes :=
  u32be tsa.length ++ tripStopArrayEncodeAux tsa

/-- Source `Trip.Encode`: RouteID, ServiceID, ShapeID, Direction byte, Headsign, then
the encoded Stops array. -/
def tripEncode (t : Trip) : Bytes :=
  lp t.routeID ++ lp t.serviceID ++ lp t.shapeID ++ boolByte t.direction ++
    lp t.headsign ++ tripStopArrayEncode t.stops

/-! ## Decoders (each mirrors the corresponding Go `Decode` method: the same
field reads with the same bounds checks, ending in the trailing-data check) -/

/-- Field reads of `Agency.Decode` (Name, URL, Timezone). -/
def agencyP (id : Key) : P Agency :=
  pbind (readStr "buffer too small for Agency Name length"
      "buffer too small for Agency Name content") (fun name =>
    pbind (readStr "buffer too small for Agency URL length"
        "buffer too small for Agency URL content") (fun url =>
      pbind (readStr "buffer too small for Agency Timezone length"
          "buffer too small for Agency Timezone content") (fun tz =>
        ppure (Agency.mk id name url tz))))

/-- Source `Agency.Decode` with its trailing-data check. -/
def agencyDecode (id : Key) (data : Bytes) : Except String Agency :=
  runFull (agencyP id) "agency buffer not fully consumed, trailing data exists" data

/-- Source `KeyArray.Decode` as a prefix parser: count then per-key length and
content. -/
def keyArrayP : P (List Key) :=
  countedP (readStr "keyarray buffer too small for key length"
    "keyarray buffer too small for key content") "keyarray buffer too small for count"

/-- Field reads of `Route.Decode`. -/
def routeP (id : Key) : P Route :=
  pbind (readStr "buffer too small for AgencyID length"
      "buffer too small for AgencyID content") (fun agencyID =>
    pbind (readStr "buffer too small for Name length"
        "buffer too small for Name content") (fun name =>
      pbind (readU8 "buffer too small for Type") (fun rtype =>
        pbind (readStr "buffer too small for Colour length"
            "buffer too small for Colour content") (fun colour =>
          pbind (readStr "buffer too small for ShapeID length"
              "buffer too small for ShapeID content") (fun shapeID =>
            pbind keyArrayP (fun stops =>
              ppure (Route.mk id agencyID name rtype colour shapeID stops)))))))

/-- Source `Route.Decode`: the rest of the buffer is handed to `KeyArray.Decode`,
whose own trailing check is the overall trailing check. -/
def routeDecode (id : Key) (data : Bytes) : Except String Route :=
  runFull (routeP id) "keyarray buffer not fully consumed, trailing data exists" data

/-- Source `Coordinate.Decode` on its exactly-sized slice: two 8-byte reads. -/
def coordP : P Coordinate :=
  pbind (readU64 "coordinate buffer too small") (fun lat =>
    pbind (readU64 "coordinate buffer too small") (fun lon =>
      ppure (Coordinate.mk lat lon)))

/-- Source `CoordinateArray.Decode` as a prefix parser: count then the fixed-size
coordinates (the source slices exactly 16 bytes per element and the inner
decode consumes that slice entirely, which is the same as parsing 16 bytes in
stream order). -/
def coordArrayP : P (List Coordinate) :=
  countedP coordP "coordinatearray buffer too small for count"

/-- Field reads of `Stop.Decode` (the Location is decoded from its
exactly-sized 16-byte slice). -/
def stopP (id : Key) : P Stop :=
  pbind (readStr "stop buffer too small for Code length"
      "stop buffer too small for Code content") (fun code =>
    pbind (readStr "stop buffer too small for Name length"
        "stop buffer too small for Name content") (fun name =>
      pbind (readStr "stop buffer too small for ParentID length"
          "stop buffer too small for ParentID content") (fun parentID =>
        pbind coordP (fun location =>
          pbind (readU8 "stop buffer too small for LocationType") (fun lt =>
            pbind (readU8 "stop buffer too small for SupportedModes") (fun sm =>
              ppure (Stop.mk id code name parentID location lt sm)))))))

/-- Source `Stop.Decode` with its trailing-data check. -/
def stopDecode (id : Key) (data : Bytes) : Except String Stop :=
  runFull (stopP id) "stop buffer not fully consumed, trailing data exists" data

/-- Field reads of `Service.Decode` (Weekdays byte, then the two Unix-second
dates). -/
def serviceP (id : Key) : P Service :=
  pbind (readU8 "service buffer too small for Weekdays") (fun weekdays =>
    pbind (readI64 "service buffer too small for StartDate") (fun startDate =>
      pbind (readI64 "service buffer too small for EndDate") (fun endDate =>
        ppure (Service.mk id weekdays startDate endDate))))

/-- Source `Service.Decode` with its trailing-data check. -/
def serviceDecode (id : Key) (data : Bytes) : Except String Service :=
  runFull (serviceP id) "service buffer not fully consumed, trailing data exists" data

/-- Field reads of `ServiceException.Decode` (no out-of-band key: the service
identifier is part of the payload). -/
def seP : P ServiceException :=
  pbind (readStr "buffer too small for ServiceID length"
      "buffer too small for ServiceID content") (fun serviceID =>
    pbind (readI64 "buffer too small for Date") (fun date =>
      pbind (readBool "buffer too small for Type"
          "invalid byte value for bool Type") (fun etype =>
        ppure (ServiceException.mk serviceID date etype))))

/-- Source `ServiceException.Decode` with its trailing-data check. -/
def seDecode (data : Bytes) : Except String ServiceException :=
  runFull seP "buffer not fully consumed, trailing data exists" data

/-- Source `Shape.Decode`: the whole buffer is the coordinate array. -/
def shapeDecode (id : Key) (data : Bytes) : Except String Shape :=
  match runFull coordArrayP
      "coordinatearray buffer not fully consumed, trailing data exists" data with
  | .ok coords => .ok (Shape.mk id coords)
  | .error e => .error e

/-- Field reads of `TripStop.Decode` on its exactly-sized slice. -/
def tripStopP : P TripStop :=
  pbind (readStr "tripstop buffer too small for StopID length"
      "tripstop buffer too small for StopID content") (fun stopID =>
    pbind (readU32 "tripstop buffer too small for ArrivalTime") (fun arrival =>
      pbind (readU32 "tripstop buffer too small for DepartureTime") (fun departure =>
        pbind (readBool "tripstop buffer too small for Timepoint"
            "invalid byte value for bool Timepoint") (fun tp =>
          ppure (TripStop.mk stopID arrival departure tp)))))

/-- Source `TripStopArray.Decode` as a prefix parser: count, then per element a
4-byte data length, the exact slice, and the inner `TripStop.Decode` with its
own trailing check. -/
def tripStopArrayP : P (List TripStop) :=
  countedP (subParse tripStopP
      "tripstoparray buffer too small for TripStop data length"
      "tripstoparray buffer too small for TripStop content"
      "tripstop buffer not fully consumed, trailing data exists")
    "tripstoparray buffer too small for count"

/-- Field reads of `Trip.Decode`: the five scalar fields then the stops
array, which receives the rest of the buffer. -/
def tripP (id : Key) : P Trip :=
  pbind (readStr "trip buffer too small for RouteID length"
      "trip buffer too small for RouteID content") (fun routeID =>
    pbind (readStr "trip buffer too small for ServiceID length"
        "trip buffer too small for ServiceID content") (fun serviceID =>
      pbind (readStr "trip buffer too small for ShapeID length"
          "trip buffer too small for ShapeID content") (fun shapeID =>
        pbind (readBool "trip buffer too small for Direction"
            "invalid byte value for bool Direction") (fun direction =>
          pbind (readStr "trip buffer too small for Headsign length"
              "trip buffer too small for Headsign content") (fun headsign =>
            pbind tripStopArrayP (fun stops =>
              ppure (Trip.mk id routeID serviceID shapeID direction headsign stops)))))))

/-- Source `Trip.Decode`: the trailing check is `TripStopArray.Decode`'s full
consumption of the remaining buffer. -/
def tripDecode (id : Key) (data : Bytes) : Except String Trip :=
  runFull (tripP id) "tripstoparray buffer not fully consumed, trailing data exists" data

/-! ## Validity (the value ranges representable by the wire format: Go field
types already bound the enum bytes, and realistic feeds bound the rest) -/

/-- Valid `Agency` under key `k`: the stored key is the agency's identifier
and each string fits the 4-byte length prefix. -/
def Agency.Valid (a : Agency) (k : Key) : Prop :=
  a.id = k ∧ a.name.length < U32 ∧ a.url.length < U32 ∧ a.timezone.length < U32

/-- Valid `Route` under key `k` (`Type` is a `uint8` in the source). -/
def Route.Valid (r : Route) (k : Key) : Prop :=
  r.id = k ∧ r.agencyID.length < U32 ∧ r.name.length < U32 ∧ r.rtype < 256 ∧
    r.colour.length < U32 ∧ r.shapeID.length < U32 ∧ r.stops.length < U32 ∧
    ∀ s ∈ r.stops, s.length < U32

/-- Valid `Coordinate`: each bit pattern is a `uint64`. -/
def Coordinate.Valid (c : Coordinate) : Prop :=
  c.latBits < U64 ∧ c.lonBits < U64

/-- Valid `Stop` under key `k` (`LocationType` and `ModeFlag` are `uint8`). -/
def Stop.Valid (s : Stop) (k : Key) : Prop :=
  s.id = k ∧ s.code.length < U32 ∧ s.name.length < U32 ∧ s.parentID.length < U32 ∧
    s.location.Valid ∧ s.locationType < 256 ∧ s.supportedModes < 256

/-- Valid `Service` under key `k` (`WeekdayFlag` is a `uint8`; the dates are
`int64` Unix seconds). -/
def Service.Valid (s : Service) (k : Key) : Prop :=
  s.id = k ∧ s.weekdays < 256 ∧
    -9223372036854775808 ≤ s.startDate ∧ s.startDate < 9223372036854775808 ∧
    -9223372036854775808 ≤ s.endDate ∧ s.endDate < 9223372036854775808

/-- Valid `ServiceException` (the date is an `int64` Unix second). -/
def ServiceException.Valid (se : ServiceException) : Prop :=
  se.serviceID.length < U32 ∧
    -9223372036854775808 ≤ se.date ∧ se.date < 9223372036854775808

/-- Valid `Shape` under key `k`. -/
def Shape.Valid (s : Shape) (k : Key) : Prop :=
  s.id = k ∧ s.coordinates.length < U32 ∧ ∀ c ∈ s.coordinates, c.Valid

/-- Valid `TripStop`: the times fit the `uint32` wire width and the whole
element's encoding fits its 4-byte length prefix. -/
def TripStop.Valid (ts : TripStop) : Prop :=
  ts.stopID.length + 13 < U32 ∧ ts.arrivalTime < U32 ∧ ts.departureTime < U32

/-- Valid `Trip` under key `k`. -/
def Trip.Valid (t : Trip) (k : Key) : Prop :=
  t.id = k ∧ t.routeID.length < U32 ∧ t.serviceID.length < U32 ∧
    t.shapeID.length < U32 ∧ t.headsign.length < U32 ∧ t.stops.length < U32 ∧
    ∀ ts ∈ t.stops, ts.Valid

instance (a : Agency) (k : Key) : Decidable (a.Valid k) := by
  unfold Agency.Valid; infer_instance

instance (r : Route) (k : Key) : Decidable (r.Valid k) := by
  unfold Route.Valid; infer_instance

instance (c : Coordinate) : Decidable c.Valid := by
  unfold Coordinate.Valid; infer_instance

instance (s : Stop) (k : Key) : Decidable (s.Valid k) := by
  unfold Stop.Valid; infer_instance

instance (s : Service) (k : Key) : Decidable (s.Valid k) := by
  unfold Service.Valid; infer_instance

instance (se : ServiceException) : Decidable se.Valid := by
  unfold ServiceException.Valid; infer_instance

instance (s : Shape) (k : Key) : Decidable (s.Valid k) := by
  unfold Shape.Valid; infer_instance

instance (ts : TripStop) : Decidable ts.Valid := by
  unfold TripStop.Valid; infer_instance

instance (t : Trip) (k : Key) : Decidable (t.Valid k) := by
  unfold Trip.Valid; infer_instance

/-! ## Scheduling engine (gtfs_utils.go)

A query instant is an absolute Unix second (`Int`) and a timezone is its
fixed offset from UTC in seconds; `t.In(timezone)` is addition of the offset,
after which `t.Hour()*3600 + t.Minute()*60 + t.Second()` is the local second
of day, `t.Weekday()` is derived from the local day number (day 0,
1970-01-01, is a Thursday, Go weekday 4), and `date.Format("20060102")` keys
a service exception by the local day number. -/

/-- Source `secondsInDay` of the source. -/
def secondsInDay : Int := 86400

/-- Source `hasDay` of gtfs_utils.go: rotate Go's Sunday-first weekday into the
Monday-first bitmask with `(int(day)+6)%7` and test the bit. -/
def hasDay (flags : Nat) (day : Int) : Bool :=
  if day < 0 ∨ 6 < day then false
  else decide (flags &&& (1 <<< ((day.toNat + 6) % 7)) ≠ 0)

/-- Source `isTripWithinInterval` of gtfs_utils.go, verbatim over `Int`. -/
def isTripWithinInterval (tripStartTime tripEndTime tSeconds bufferSeconds : Int) : Bool :=
  let normTripStart := tripStartTime
  let normTripEnd := if tripEndTime < tripStartTime then tripEndTime + secondsInDay
    else tripEndTime
  let intervalStart := tSeconds - bufferSeconds
  let intervalEnd := tSeconds + bufferSeconds
  let overlapCurrent := max intervalStart normTripStart ≤ min intervalEnd normTripEnd
  let overlapPreviousDay :=
    max intervalStart (normTripStart - secondsInDay) ≤
      min intervalEnd (normTripEnd - secondsInDay)
  let overlapNextDay :=
    max intervalStart (normTripStart + secondsInDay) ≤
      min intervalEnd (normTripEnd + secondsInDay)
  overlapCurrent || overlapPreviousDay || overlapNextDay

/-- Source `Trip.StartTime`: first stop's arrival, `0` for an empty stop list. -/
def Trip.startTime (t : Trip) : Nat :=
  match t.stops with
  | [] => 0
  | s :: _ => s.arrivalTime

/-- Source `Trip.EndTime`: last stop's departure, `0` for an empty stop list. -/
def Trip.endTime (t : Trip) : Nat :=
  (t.stops.getLast?.map (fun s => s.departureTime)).getD 0

/-- The read-only store behind the query façade: each collection maps a key
to the stored encoded record (decoded on read, as in gtfs.go), service
exceptions are keyed by service key and local day number (the source key is
`string(serviceID) + date.Format("20060102")`), and the timezone database
maps an IANA name to its fixed UTC offset in seconds (the model of
`time.LoadLocation`). -/
structure Store where
  routes : Key → Option Bytes
  agencies : Key → Option Bytes
  services : Key → Option Bytes
  exceptions : Key → Int → Option Bytes
  tzdb : Bytes → Option Int

/-- Source `GetRouteByID`: absent key is "route not found", otherwise decode the
stored record. -/
def getRouteByID (st : Store) (k : Key) : Except String Route :=
  match st.routes k with
  | none => .error "route not found"
  | some bs => routeDecode k bs

/-- Source `GetAgencyByID`. -/
def getAgencyByID (st : Store) (k : Key) : Except String Agency :=
  match st.agencies k with
  | none => .error "agency not found"
  | some bs => agencyDecode k bs

/-- Source `GetServiceByID`. -/
def getServiceByID (st : Store) (k : Key) : Except String Service :=
  match st.services k with
  | none => .error "service not found"
  | some bs => serviceDecode k bs

/-- Source `GetServiceException(serviceID, date)`: the lookup errors both when no
record exists under the composite key and when the stored record fails to
decode. -/
def getServiceException (st : Store) (sid : Key) (day : Int) : Except String ServiceException :=
  match st.exceptions sid day with
  | none => .error "service exception not found"
  | some bs => seDecode bs

/-- Drop an `Except` error, as `exception, _ := g.GetServiceException(...)`
does (a failed lookup leaves the exception pointer nil). -/
def excToOption {α : Type} : Except String α → Option α
  | .ok a => some a
  | .error _ => none

/-- The per-service running decision of `GetCurrentTripsWithBuffer` for the
local weekday `wd` and local day number `day`: look up the service (an error
aborts), look up the exception discarding its error, then
`running = exception == nil || exception.Type != RemovedExceptionType` when
the weekday bit is set, else
`running = exception != nil && exception.Type == AddedExceptionType`. -/
def serviceRunning (st : Store) (sid : Key) (wd day : Int) : Except String Bool :=
  match getServiceByID st sid with
  | .error e => .error e
  | .ok service =>
    .ok (if hasDay service.weekdays wd then
          match excToOption (getServiceException st sid day) with
          | none => true
          | some exc => decide (exc.etype ≠ RemovedExceptionType)
        else
          match excToOption (getServiceException st sid day) with
          | none => false
          | some exc => decide (exc.etype = AddedExceptionType))

/-- The lookups `GetCurrentTripsWithBuffer` performs against the store and
the timezone database, recorded in call order. -/
inductive Lookup where
  | route (k : Key)
  | agency (k : Key)
  | tz (name : Bytes)
  | service (k : Key)
  | exc (k : Key) (day : Int)
deriving DecidableEq, Repr

/-- One-step cache lookup for `runningCache` (`map[Key]bool`). -/
def cacheFind : List (Key × Bool) → Key → Option Bool
  | [], _ => none
  | (k, b) :: rest, sid => if k = sid then some b else cacheFind rest sid

/-- The per-trip loop of `GetCurrentTripsWithBuffer`: consult `runningCache`,
on a miss resolve the service's running flag (propagating only the service
lookup's error, logging both the service and the exception lookups), skip a
trip whose service is not running, skip a trip outside the interval, keep the
rest in order. -/
def tripsLoop (st : Store) (wd day tSeconds buffer : Int) :
    List Trip → List (Key × Bool) → Except String (List Trip) × List Lookup
  | [], _ => (.ok [], [])
  | trip :: rest, cache =>
    match cacheFind cache trip.serviceID with
    | some running =>
      if running &&
          isTripWithinInterval ((trip.startTime % 86400 : Nat) : Int)
            ((trip.endTime % 86400 : Nat) : Int) tSeconds buffer then
        ((tripsLoop st wd day tSeconds buffer rest cache).1.map (fun l => trip :: l),
         (tripsLoop st wd day tSeconds buffer rest cache).2)
      else
        tripsLoop st wd day tSeconds buffer rest cache
    | none =>
      match serviceRunning st trip.serviceID wd day with
      | .error e => (.error e, [Lookup.service trip.serviceID])
      | .ok running =>
        if running &&
            isTripWithinInterval ((trip.startTime % 86400 : Nat) : Int)
              ((trip.endTime % 86400 : Nat) : Int) tSeconds buffer then
          ((tripsLoop st wd day tSeconds buffer rest
              ((trip.serviceID, running) :: cache)).1.map (fun l => trip :: l),
           Lookup.service trip.serviceID :: Lookup.exc trip.serviceID day ::
             (tripsLoop st wd day tSeconds buffer rest ((trip.serviceID, running) :: cache)).2)
        else
          ((tripsLoop st wd day tSeconds buffer rest ((trip.serviceID, running) :: cache)).1,
           Lookup.service trip.serviceID :: Lookup.exc trip.serviceID day ::
             (tripsLoop st wd day tSeconds buffer rest ((trip.serviceID, running) :: cache)).2)

/-- Source `GetCurrentTripsWithBuffer` over the store model: empty input returns
immediately; otherwise resolve the first trip's route, its agency and the
agency's timezone (each failure aborts the call), localize the instant, and
run the per-trip loop with an empty running cache.  The second component
records every store/timezone lookup performed. -/
def getCurrentTripsWithBuffer (st : Store) (trips : List Trip) (t buffer : Int) :
    Except String (List Trip) × List Lookup :=
  match trips with
  | [] => (.ok [], [])
  | trip0 :: _ =>
    match getRouteByID st trip0.routeID with
    | .error e => (.error e, [Lookup.route trip0.routeID])
    | .ok route =>
      match getAgencyByID st route.agencyID with
      | .error e => (.error e, [Lookup.route trip0.routeID, Lookup.agency route.agencyID])
      | .ok agency =>
        match st.tzdb agency.timezone with
        | none => (.error "unknown time zone",
            [Lookup.route trip0.routeID, Lookup.agency route.agencyID,
             Lookup.tz agency.timezone])
        | some offset =>
          ((tripsLoop st (((t + offset) / 86400 + 4) % 7) ((t + offset) / 86400)
              ((t + offset) % 86400) buffer trips []).1,
           Lookup.route trip0.routeID :: Lookup.agency route.agencyID ::
             Lookup.tz agency.timezone ::
             (tripsLoop st (((t + offset) / 86400 + 4) % 7) ((t + offset) / 86400)
               ((t + offset) % 86400) buffer trips []).2)

/-! ## Persistence load (gtfs_factories.go `FromDB`) -/

/-- Source `CurrentVersion = 2` of the source. -/
def CurrentVersion : Int := 2

/-- The metadata bucket of an opened database: the values stored under the
keys "version" and "created", if present. -/
structure MetaBucket where
  version : Option Bytes
  created : Option Bytes

/-- An opened bolt database, as far as `FromDB` reads it: its metadata
bucket, if present. -/
structure BoltDB where
  metaBucket : Option MetaBucket

/-- The fields of the `GTFS` struct that `FromDB` touches. -/
structure GTFSState where
  version : Int
  created : Int
  db : Option BoltDB

/-- The value of an ASCII digit byte. -/
def digitVal (b : Nat) : Option Nat :=
  if 48 ≤ b ∧ b ≤ 57 then some (b - 48) else none

/-- The value of a nonempty all-digit byte string. -/
def digitsVal : Bytes → Option Nat
  | [] => none
  | [b] => digitVal b
  | b :: rest =>
    match digitVal b, digitsVal rest with
    | some d, some n => some (d * 10 ^ rest.length + n)
    | _, _ => none

/-- Source `strconv.Atoi` / `strconv.ParseInt` on the decimal byte strings `FromDB`
reads from the metadata bucket (an optional minus sign then digits). -/
def atoi (bs : Bytes) : Option Int :=
  match bs with
  | 45 :: rest => (digitsVal rest).map (fun n => -(n : Int))
  | _ => (digitsVal bs).map (fun n => (n : Int))

/-- Source `FromDB` over the state model: opening the file yields `file` (`none`
models a `bolt.Open` failure, which leaves the struct untouched); on success
the handle is stored in `g.db` first, then the metadata bucket is read and
the version is compared against `CurrentVersion`; only after every check pass
are `Version` and `Created` populated.  Returns the updated struct and the
error, if any. -/
def fromDB (g : GTFSState) (file : Option BoltDB) : GTFSState × Option String :=
  match file with
  | none => (g, some "open failed")
  | some db =>
    let g1 : GTFSState := { g with db := some db }
    match db.metaBucket with
    | none => (g1, some "metadata bucket not found")
    | some b =>
      match b.version with
      | none => (g1, some "version not found in metadata")
      | some vbytes =>
        match atoi vbytes with
        | none => (g1, some "version parse error")
        | some v =>
          if v ≠ CurrentVersion then
            (g1, some "GTFS database version mismatch")
          else
            match b.created with
            | none => (g1, some "created timestamp not found in metadata")
            | some cbytes =>
              match atoi cbytes with
              | none => (g1, some "created parse error")
              | some c => ({ g1 with version := v, created := c }, none)

/-! ## Concrete fixtures for the scheduling and persistence scenarios -/

/-- Key "R". -/
def kR : Key := [82]

/-- Key "A". -/
def kA : Key := [65]

/-- Key "S". -/
def kS : Key := [83]

/-- Key "T". -/
def kT : Key := [84]

/-- The timezone name "UTC". -/
def tzUTC : Bytes := [85, 84, 67]

/-- An agency in timezone UTC. -/
def agencyA : Agency := Agency.mk kA [] [] tzUTC

/-- A route of `agencyA`. -/
def routeR : Route := Route.mk kR kA [] 3 [] [] []

/-- A Monday-only service (weekday bitmask bit 0) valid 1970-01-01 through
2100-01-01. -/
def svcMonday : Service := Service.mk kS 1 0 4102444800

/-- A Monday-only service valid 2025-01-01 through 2025-12-31 only. -/
def svcMonday2025 : Service := Service.mk kS 1 1735689600 1767139200

/-- The midnight-crossing trip of the spec's concrete scenario: first-stop
arrival 85800 (23:50), last-stop departure 86700 (24:05). -/
def tripNight : Trip :=
  Trip.mk kT kR kS [] false []
    [TripStop.mk [66] 85800 85800 false, TripStop.mk [67] 86600 86700 false]

/-- A trip running 43000..44000 seconds (late morning through noon). -/
def tripNoon : Trip :=
  Trip.mk kT kR kS [] false []
    [TripStop.mk [66] 43000 43100 false, TripStop.mk [67] 43900 44000 false]

/-- A removed-type service exception for `svcMonday`. -/
def excRemoved : ServiceException := ServiceException.mk kS 345600 RemovedExceptionType

/-- A store holding `routeR`, `agencyA` and `svcMonday`, with no service
exceptions. -/
def storeMonday : Store where
  routes := fun k => if k = kR then some (routeEncode routeR) else none
  agencies := fun k => if k = kA then some (agencyEncode agencyA) else none
  services := fun k => if k = kS then some (serviceEncode svcMonday) else none
  exceptions := fun _ _ => none
  tzdb := fun n => if n = tzUTC then some 0 else none

/-- Like `storeMonday` but with the 2025-only service. -/
def storeMonday2025 : Store where
  routes := fun k => if k = kR then some (routeEncode routeR) else none
  agencies := fun k => if k = kA then some (agencyEncode agencyA) else none
  services := fun k => if k = kS then some (serviceEncode svcMonday2025) else none
  exceptions := fun _ _ => none
  tzdb := fun n => if n = tzUTC then some 0 else none

/-- Like `storeMonday` but the exception record for `(kS, day 4)` holds the
single byte 255, which no `ServiceException.Decode` accepts. -/
def storeMalformedExc : Store where
  routes := fun k => if k = kR then some (routeEncode routeR) else none
  agencies := fun k => if k = kA then some (agencyEncode agencyA) else none
  services := fun k => if k = kS then some (serviceEncode svcMonday) else none
  exceptions := fun k day => if k = kS then (if day = 4 then some [255] else none) else none
  tzdb := fun n => if n = tzUTC then some 0 else none

/-- Like `storeMonday` but with a removed-type exception stored for
`(kS, day 4)`. -/
def storeRemovedExc : Store where
  routes := fun k => if k = kR then some (routeEncode routeR) else none
  agencies := fun k => if k = kA then some (agencyEncode agencyA) else none
  services := fun k => if k = kS then some (serviceEncode svcMonday) else none
  exceptions := fun k day => if k = kS then (if day = 4 then some (seEncode excRemoved) else none) else none
  tzdb := fun n => if n = tzUTC then some 0 else none

/-- Like `storeMonday` but with no record for `kS` in the services
collection. -/
def storeNoService : Store where
  routes := fun k => if k = kR then some (routeEncode routeR) else none
  agencies := fun k => if k = kA then some (agencyEncode agencyA) else none
  services := fun _ => none
  exceptions := fun _ _ => none
  tzdb := fun n => if n = tzUTC then some 0 else none

/-- Unix second 432120: Tuesday 1970-01-06 00:02:00 UTC (day number 5,
Go weekday 2). -/
def tTuesday0002 : Int := 432120

/-- Unix second 388800: Monday 1970-01-05 12:00:00 UTC (day number 4,
Go weekday 1). -/
def tMondayNoon : Int := 388800

/-- A zero-valued `GTFS` struct (`&gtfs.GTFS{}`). -/
def gZero : GTFSState := GTFSState.mk 0 0 none

/-- An openable database whose metadata says version "1" (byte 49) and
created "0" (byte 48): a version-mismatching container for the running
code's `CurrentVersion = 2`. -/
def dbVersion1 : BoltDB := BoltDB.mk (some (MetaBucket.mk (some [49]) (some [48])))

/-! ## Parser laws -/

theorem consumes_congr {α : Type} {p : P α} {c c' : Bytes} {a : α}
    (h : Consumes p c a) (e : c = c') : Consumes p c' a :=
  e ▸ h

theorem law_ppure {α : Type} (a : α) : Law (ppure a) := by
  constructor
  · intro l a' k h
    simp only [ppure, Except.ok.injEq, Prod.mk.injEq] at h
    obtain ⟨rfl, rfl⟩ := h
    exact ⟨[], by simp, fun r => rfl⟩
  · intro c a' hc m hm
    have h0 := hc []
    simp only [ppure, List.append_nil, Except.ok.injEq, Prod.mk.injEq] at h0
    rw [h0.2] at hm
    simp at hm

theorem law_pfail {α : Type} (e : String) : Law (pfail (α := α) e) := by
  constructor
  · intro l a k h
    simp [pfail] at h
  · intro c a hc m hm
    have h0 := hc []
    simp [pfail] at h0

theorem law_pofExcept {α : Type} (r : Except String α) : Law (pofExcept r) := by
  cases r with
  | ok a => exact law_ppure a
  | error e => exact law_pfail e

theorem consumes_ppure {α : Type} (a : α) : Consumes (ppure a) [] a :=
  fun _ => rfl

theorem consumes_pbind {α β : Type} {p : P α} {f : α → P β} {c1 c2 : Bytes} {a : α} {b : β}
    (h1 : Consumes p c1 a) (h2 : Consumes (f a) c2 b) :
    Consumes (pbind p f) (c1 ++ c2) b := by
  intro r
  rw [List.append_assoc]
  show pbind p f (c1 ++ (c2 ++ r)) = .ok (b, r)
  unfold pbind
  rw [h1 (c2 ++ r)]
  exact h2 r

theorem law_pbind {α β : Type} {p : P α} {f : α → P β}
    (hp : Law p) (hf : ∀ a, Law (f a)) : Law (pbind p f) := by
  constructor
  · intro l b k h
    unfold pbind at h
    cases hres : p l with
    | error e => rw [hres] at h; simp at h
    | ok v =>
      obtain ⟨a, r0⟩ := v
      rw [hres] at h
      simp only at h
      obtain ⟨c1, rfl, hcons1⟩ := hp.stable l a r0 hres
      obtain ⟨c2, rfl, hcons2⟩ := (hf a).stable r0 b k h
      exact ⟨c1 ++ c2, by rw [List.append_assoc], consumes_pbind hcons1 hcons2⟩
  · intro c b hc m hm
    have h0 := hc []
    rw [List.append_nil] at h0
    unfold pbind at h0
    cases hres : p c with
    | error e => rw [hres] at h0; simp at h0
    | ok v =>
      obtain ⟨a, r0⟩ := v
      rw [hres] at h0
      simp only at h0
      obtain ⟨c1, hce, hcons1⟩ := hp.stable c a r0 hres
      obtain ⟨c2, hr0, hcons2⟩ := (hf a).stable r0 b [] h0
      rw [List.append_nil] at hr0
      have hcc : c = c1 ++ c2 := by rw [hce, hr0]
      rw [hcc] at hm
      by_cases hcase : m < c1.length
      · obtain ⟨e, he⟩ := hp.short c1 a hcons1 m hcase
        refine ⟨e, ?_⟩
        have ht : (c1 ++ c2).take m = c1.take m ++ c2.take (m - c1.length) :=
          List.take_append_eq_append_take
        have hz : m - c1.length = 0 := by omega
        rw [hz, List.take_zero, List.append_nil] at ht
        rw [hcc, ht]
        unfold pbind
        rw [he]
      · rw [List.length_append] at hm
        have hm2 : m - c1.length < c2.length := by omega
        obtain ⟨e, he⟩ := (hf a).short c2 b hcons2 (m - c1.length) hm2
        refine ⟨e, ?_⟩
        have ht : (c1 ++ c2).take m = c1.take m ++ c2.take (m - c1.length) :=
          List.take_append_eq_append_take
        have hc1 : c1.take m = c1 := List.take_of_length_le (by omega)
        rw [hc1] at ht
        rw [hcc, ht]
        unfold pbind
        rw [hcons1 (c2.take (m - c1.length))]
        exact he

theorem consumes_readBytes (s : Bytes) (msg : String) :
    Consumes (readBytes s.length msg) s s := by
  intro r
  unfold readBytes
  rw [if_pos (by simp)]
  rw [List.take_left, List.drop_left]

theorem law_readBytes (n : Nat) (msg : String) : Law (readBytes n msg) := by
  constructor
  · intro l a k h
    unfold readBytes at h
    split at h
    · simp only [Except.ok.injEq, Prod.mk.injEq] at h
      obtain ⟨rfl, rfl⟩ := h
      refine ⟨l.take n, (List.take_append_drop n l).symm, ?_⟩
      intro r
      unfold readBytes
      have hlen : (l.take n).length = n := by
        rw [List.length_take]
        omega
      rw [if_pos (by simp [hlen])]
      rw [List.take_left' hlen, List.drop_left' hlen]
    · simp at h
  · intro c a hc m hm
    have h0 := hc []
    rw [List.append_nil] at h0
    unfold readBytes at h0
    split at h0
    · rename_i hle
      simp only [Except.ok.injEq, Prod.mk.injEq] at h0
      have hdrop : c.drop n = [] := h0.2
      have : c.length - n = 0 := by
        have := List.length_drop n c
        rw [hdrop] at this
        simp at this
        omega
      have hcn : c.length = n := by omega
      refine ⟨msg, ?_⟩
      unfold readBytes
      rw [if_neg]
      rw [List.length_take]
      omega
    · simp at h0

theorem consumes_readU8 (b : Nat) (msg : String) : Consumes (readU8 msg) [b] b :=
  fun _ => rfl

theorem law_readU8 (msg : String) : Law (readU8 msg) := by
  constructor
  · intro l a k h
    cases l with
    | nil => simp [readU8] at h
    | cons b r =>
      simp only [readU8, Except.ok.injEq, Prod.mk.injEq] at h
      obtain ⟨rfl, rfl⟩ := h
      exact ⟨[b], rfl, consumes_readU8 b msg⟩
  · intro c a hc m hm
    have h0 := hc []
    rw [List.append_nil] at h0
    cases c with
    | nil => simp [readU8] at h0
    | cons b r =>
      simp only [readU8, Except.ok.injEq, Prod.mk.injEq] at h0
      obtain ⟨rfl, rfl⟩ := h0
      simp only [List.length_cons, List.length_nil] at hm
      have : m = 0 := by omega
      subst this
      exact ⟨msg, rfl⟩

theorem consumes_readU32 {n : Nat} (h : n < U32) (msg : String) :
    Consumes (readU32 msg) (u32be n) n := by
  intro r
  have hm : n % U32 = n := Nat.mod_eq_of_lt h
  show readU32 msg (u32be n ++ r) = .ok (n, r)
  simp only [u32be, hm, List.cons_append, List.nil_append, readU32]
  congr 1
  have hU : U32 = 4294967296 := rfl
  rw [hU] at h
  congr 1
  omega

theorem law_readU32 (msg : String) : Law (readU32 msg) := by
  constructor
  · intro l a k h
    rcases l with _ | ⟨b0, _ | ⟨b1, _ | ⟨b2, _ | ⟨b3, r⟩⟩⟩⟩ <;>
      simp only [readU32, Except.ok.injEq, Prod.mk.injEq, reduceCtorEq] at h
    obtain ⟨rfl, rfl⟩ := h
    exact ⟨[b0, b1, b2, b3], rfl, fun r' => rfl⟩
  · intro c a hc m hm
    have h0 := hc []
    rw [List.append_nil] at h0
    rcases c with _ | ⟨b0, _ | ⟨b1, _ | ⟨b2, _ | ⟨b3, r⟩⟩⟩⟩ <;>
      simp only [readU32, Except.ok.injEq, Prod.mk.injEq, reduceCtorEq] at h0
    obtain ⟨rfl, rfl⟩ := h0
    simp only [List.length_cons, List.length_nil] at hm
    interval_cases m <;> exact ⟨msg, rfl⟩

theorem consumes_readU64 {n : Nat} (h : n < U64) (msg : String) :
    Consumes (readU64 msg) (u64be n) n := by
  intro r
  have hm : n % U64 = n := Nat.mod_eq_of_lt h
  show readU64 msg (u64be n ++ r) = .ok (n, r)
  simp only [u64be, hm, List.cons_append, List.nil_append, readU64]
  congr 1
  have hU : U64 = 18446744073709551616 := rfl
  rw [hU] at h
  congr 1
  omega

theorem law_readU64 (msg : String) : Law (readU64 msg) := by
  constructor
  · intro l a k h
    rcases l with _ | ⟨b0, _ | ⟨b1, _ | ⟨b2, _ | ⟨b3, _ | ⟨b4, _ | ⟨b5, _ | ⟨b6, _ | ⟨b7, r⟩⟩⟩⟩⟩⟩⟩⟩ <;>
      simp only [readU64, Except.ok.injEq, Prod.mk.injEq, reduceCtorEq] at h
    obtain ⟨rfl, rfl⟩ := h
    exact ⟨[b0, b1, b2, b3, b4, b5, b6, b7], rfl, fun r' => rfl⟩
  · intro c a hc m hm
    have h0 := hc []
    rw [List.append_nil] at h0
    rcases c with _ | ⟨b0, _ | ⟨b1, _ | ⟨b2, _ | ⟨b3, _ | ⟨b4, _ | ⟨b5, _ | ⟨b6, _ | ⟨b7, r⟩⟩⟩⟩⟩⟩⟩⟩ <;>
      simp only [readU64, Except.ok.injEq, Prod.mk.injEq, reduceCtorEq] at h0
    obtain ⟨rfl, rfl⟩ := h0
    simp only [List.length_cons, List.length_nil] at hm
    interval_cases m <;> exact ⟨msg, rfl⟩

theorem consumes_readI64 {x : Int} (h1 : -9223372036854775808 ≤ x)
    (h2 : x < 9223372036854775808) (msg : String) :
    Consumes (readI64 msg) (i64be x) x := by
  have hn : (x % 18446744073709551616).toNat < U64 := by
    have hU : U64 = 18446744073709551616 := rfl
    omega
  have hval :
      (if (x % 18446744073709551616).toNat < 9223372036854775808
        then ((x % 18446744073709551616).toNat : Int)
        else ((x % 18446744073709551616).toNat : Int) - 18446744073709551616) = x := by
    split <;> rename_i hcond <;> omega
  intro r
  show readI64 msg (i64be x ++ r) = .ok (x, r)
  unfold readI64 i64be pbind
  rw [consumes_readU64 hn msg r]
  show ppure (if (x % 18446744073709551616).toNat < 9223372036854775808
      then ((x % 18446744073709551616).toNat : Int)
      else ((x % 18446744073709551616).toNat : Int) - 18446744073709551616) r = .ok (x, r)
  unfold ppure
  rw [hval]

theorem law_readI64 (msg : String) : Law (readI64 msg) :=
  law_pbind (law_readU64 msg) (fun _ => law_ppure _)

theorem consumes_readBool (b : Bool) (m1 m2 : String) :
    Consumes (readBool m1 m2) (boolByte b) b := by
  cases b <;> exact fun _ => rfl

theorem law_readBool (m1 m2 : String) : Law (readBool m1 m2) := by
  constructor
  · intro l a k h
    rcases l with _ | ⟨b, r⟩
    · simp [readBool] at h
    · rcases b with _ | b
      · simp only [readBool, Except.ok.injEq, Prod.mk.injEq] at h
        obtain ⟨rfl, rfl⟩ := h
        exact ⟨[0], rfl, consumes_readBool false m1 m2⟩
      · rcases b with _ | b
        · simp only [readBool, Except.ok.injEq, Prod.mk.injEq] at h
          obtain ⟨rfl, rfl⟩ := h
          exact ⟨[1], rfl, consumes_readBool true m1 m2⟩
        · simp [readBool] at h
  · intro c a hc m hm
    have h0 := hc []
    rw [List.append_nil] at h0
    rcases c with _ | ⟨b, r⟩
    · simp [readBool] at h0
    · have hr : r = [] := by
        rcases b with _ | b
        · simp only [readBool, Except.ok.injEq, Prod.mk.injEq] at h0
          exact h0.2
        · rcases b with _ | b
          · simp only [readBool, Except.ok.injEq, Prod.mk.injEq] at h0
            exact h0.2
          · simp [readBool] at h0
      subst hr
      simp only [List.length_cons, List.length_nil] at hm
      have : m = 0 := by omega
      subst this
      exact ⟨m1, rfl⟩

theorem consumes_readStr {s : Bytes} (h : s.length < U32) (m1 m2 : String) :
    Consumes (readStr m1 m2) (lp s) s :=
  consumes_pbind (consumes_readU32 h m1) (consumes_readBytes s m2)

theorem law_readStr (m1 m2 : String) : Law (readStr m1 m2) :=
  law_pbind (law_readU32 m1) (fun n => law_readBytes n m2)

theorem law_repeatP {α : Type} {p : P α} (hp : Law p) (n : Nat) : Law (repeatP p n) := by
  induction n with
  | zero => exact law_ppure []
  | succ k ih =>
    exact law_pbind hp (fun a => law_pbind ih (fun rest => law_ppure (a :: rest)))

theorem law_countedP {α : Type} {p : P α} (hp : Law p) (msg : String) :
    Law (countedP p msg) :=
  law_pbind (law_readU32 msg) (fun n => law_repeatP hp n)

theorem law_subParse {α : Type} (p : P α) (m1 m2 trail : String) :
    Law (subParse p m1 m2 trail) :=
  law_pbind (law_readU32 m1)
    (fun n => law_pbind (law_readBytes n m2) (fun _ => law_pofExcept _))

theorem consumes_subParse {α : Type} {p : P α} {s : Bytes} {a : α} {trail : String}
    (h : runFull p trail s = .ok a) (hlen : s.length < U32) (m1 m2 : String) :
    Consumes (subParse p m1 m2 trail) (u32be s.length ++ s) a := by
  have e : u32be s.length ++ s = u32be s.length ++ (s ++ []) := by simp
  rw [e]
  unfold subParse
  exact consumes_pbind (consumes_readU32 hlen m1)
    (consumes_pbind (consumes_readBytes s m2)
      (by rw [h]; exact consumes_ppure a))

theorem runFull_of_consumes {α : Type} {p : P α} {c : Bytes} {a : α}
    (h : Consumes p c a) (trail : String) : runFull p trail c = .ok a := by
  have h0 := h []
  rw [List.append_nil] at h0
  unfold runFull
  rw [h0]
  rfl

theorem runFull_truncate {α : Type} {p : P α} {c : Bytes} {a : α}
    (hL : Law p) (h : Consumes p c a) {m : Nat} (hm : m < c.length) (trail : String) :
    ∃ e, runFull p trail (c.take m) = .error e := by
  obtain ⟨e, he⟩ := hL.short c a h m hm
  refine ⟨e, ?_⟩
  unfold runFull
  rw [he]

theorem runFull_extend {α : Type} {p : P α} {c : Bytes} {a : α}
    (h : Consumes p c a) {extra : Bytes} (hne : extra ≠ []) (trail : String) :
    runFull p trail (c ++ extra) = .error trail := by
  unfold runFull
  rw [h extra]
  cases extra with
  | nil => exact absurd rfl hne
  | cons b r => rfl

/-! ## Laws and canonical-consumption facts for the entity codecs -/

theorem law_agencyP (id : Key) : Law (agencyP id) :=
  law_pbind (law_readStr _ _) (fun _ =>
    law_pbind (law_readStr _ _) (fun _ =>
      law_pbind (law_readStr _ _) (fun _ => law_ppure _)))

theorem consumes_agencyP (id : Key) (a : Agency) (h1 : a.name.length < U32)
    (h2 : a.url.length < U32) (h3 : a.timezone.length < U32) :
    Consumes (agencyP id) (agencyEncode a) (Agency.mk id a.name a.url a.timezone) := by
  have e : agencyEncode a = lp a.name ++ (lp a.url ++ (lp a.timezone ++ [])) := by
    simp [agencyEncode]
  rw [e]
  unfold agencyP
  exact consumes_pbind (consumes_readStr h1 _ _)
    (consumes_pbind (consumes_readStr h2 _ _)
      (consumes_pbind (consumes_readStr h3 _ _) (consumes_ppure _)))

theorem law_keyArrayP : Law keyArrayP :=
  law_countedP (law_readStr _ _) _

theorem consumes_keyArrayAux (l : List Key) (h : ∀ s ∈ l, s.length < U32) :
    Consumes (repeatP (readStr "keyarray buffer too small for key length"
      "keyarray buffer too small for key content") l.length) (keyArrayEncodeAux l) l := by
  induction l with
  | nil => exact consumes_ppure []
  | cons k rest ih =>
    have e : keyArrayEncodeAux (k :: rest) = lp k ++ (keyArrayEncodeAux rest ++ []) := by
      simp [keyArrayEncodeAux]
    rw [e]
    exact consumes_pbind (consumes_readStr (h k (by simp)) _ _)
      (consumes_pbind (ih (fun s hs => h s (by simp [hs]))) (consumes_ppure _))

theorem consumes_keyArrayP (l : List Key) (hlen : l.length < U32)
    (h : ∀ s ∈ l, s.length < U32) :
    Consumes keyArrayP (keyArrayEncode l) l := by
  unfold keyArrayP countedP keyArrayEncode
  exact consumes_pbind (consumes_readU32 hlen _) (consumes_keyArrayAux l h)

theorem law_routeP (id : Key) : Law (routeP id) :=
  law_pbind (law_readStr _ _) (fun _ =>
    law_pbind (law_readStr _ _) (fun _ =>
      law_pbind (law_readU8 _) (fun _ =>
        law_pbind (law_readStr _ _) (fun _ =>
          law_pbind (law_readStr _ _) (fun _ =>
            law_pbind law_keyArrayP (fun _ => law_ppure _))))))

theorem consumes_routeP (id : Key) (r : Route) (h1 : r.agencyID.length < U32)
    (h2 : r.name.length < U32) (h3 : r.rtype < 256) (h4 : r.colour.length < U32)
    (h5 : r.shapeID.length < U32) (h6 : r.stops.length < U32)
    (h7 : ∀ s ∈ r.stops, s.length < U32) :
    Consumes (routeP id) (routeEncode r)
      (Route.mk id r.agencyID r.name r.rtype r.colour r.shapeID r.stops) := by
  have hmod : r.rtype % 256 = r.rtype := Nat.mod_eq_of_lt h3
  have e : routeEncode r = lp r.agencyID ++ (lp r.name ++ ([r.rtype] ++ (lp r.colour ++
      (lp r.shapeID ++ (keyArrayEncode r.stops ++ []))))) := by
    simp [routeEncode, hmod]
  rw [e]
  unfold routeP
  exact consumes_pbind (consumes_readStr h1 _ _)
    (consumes_pbind (consumes_readStr h2 _ _)
      (consumes_pbind (consumes_readU8 r.rtype _)
        (consumes_pbind (consumes_readStr h4 _ _)
          (consumes_pbind (consumes_readStr h5 _ _)
            (consumes_pbind (consumes_keyArrayP r.stops h6 h7) (consumes_ppure _))))))

theorem law_coordP : Law coordP :=
  law_pbind (law_readU64 _) (fun _ =>
    law_pbind (law_readU64 _) (fun _ => law_ppure _))

theorem consumes_coordP (c : Coordinate) (h : c.Valid) :
    Consumes coordP (coordEncode c) c := by
  have e : coordEncode c = u64be c.latBits ++ (u64be c.lonBits ++ []) := by
    simp [coordEncode]
  rw [e]
  unfold coordP
  exact consumes_pbind (consumes_readU64 h.1 _)
    (consumes_pbind (consumes_readU64 h.2 _) (consumes_ppure _))

theorem law_coordArrayP : Law coordArrayP :=
  law_countedP law_coordP _

theorem consumes_coordArrayAux (l : List Coordinate) (h : ∀ c ∈ l, c.Valid) :
    Consumes (repeatP coordP l.length) (coordArrayEncodeAux l) l := by
  induction l with
  | nil => exact consumes_ppure []
  | cons c rest ih =>
    have e : coordArrayEncodeAux (c :: rest) = coordEncode c ++ (coordArrayEncodeAux rest ++ []) := by
      simp [coordArrayEncodeAux]
    rw [e]
    exact consumes_pbind (consumes_coordP c (h c (by simp)))
      (consumes_pbind (ih (fun x hx => h x (by simp [hx]))) (consumes_ppure _))

theorem consumes_coordArrayP (l : List Coordinate) (hlen : l.length < U32)
    (h : ∀ c ∈ l, c.Valid) :
    Consumes coordArrayP (coordArrayEncode l) l := by
  unfold coordArrayP countedP coordArrayEncode
  exact consumes_pbind (consumes_readU32 hlen _) (consumes_coordArrayAux l h)

theorem law_stopP (id : Key) : Law (stopP id) :=
  law_pbind (law_readStr _ _) (fun _ =>
    law_pbind (law_readStr _ _) (fun _ =>
      law_pbind (law_readStr _ _) (fun _ =>
        law_pbind law_coordP (fun _ =>
          law_pbind (law_readU8 _) (fun _ =>
            law_pbind (law_readU8 _) (fun _ => law_ppure _))))))

theorem consumes_stopP (id : Key) (s : Stop) (h1 : s.code.length < U32)
    (h2 : s.name.length < U32) (h3 : s.parentID.length < U32) (h4 : s.location.Valid)
    (h5 : s.locationType < 256) (h6 : s.supportedModes < 256) :
    Consumes (stopP id) (stopEncode s)
      (Stop.mk id s.code s.name s.parentID s.location s.locationType s.supportedModes) := by
  have hm5 : s.locationType % 256 = s.locationType := Nat.mod_eq_of_lt h5
  have hm6 : s.supportedModes % 256 = s.supportedModes := Nat.mod_eq_of_lt h6
  have e : stopEncode s = lp s.code ++ (lp s.name ++ (lp s.parentID ++ (coordEncode s.location ++
      ([s.locationType] ++ ([s.supportedModes] ++ []))))) := by
    simp [stopEncode, hm5, hm6]
  rw [e]
  unfold stopP
  exact consumes_pbind (consumes_readStr h1 _ _)
    (consumes_pbind (consumes_readStr h2 _ _)
      (consumes_pbind (consumes_readStr h3 _ _)
        (consumes_pbind (consumes_coordP s.location h4)
          (consumes_pbind (consumes_readU8 s.locationType _)
            (consumes_pbind (consumes_readU8 s.supportedModes _) (consumes_ppure _))))))

theorem law_serviceP (id : Key) : Law (serviceP id) :=
  law_pbind (law_readU8 _) (fun _ =>
    law_pbind (law_readI64 _) (fun _ =>
      law_pbind (law_readI64 _) (fun _ => law_ppure _)))

theorem consumes_serviceP (id : Key) (s : Service) (h1 : s.weekdays < 256)
    (h2 : -9223372036854775808 ≤ s.startDate) (h3 : s.startDate < 9223372036854775808)
    (h4 : -9223372036854775808 ≤ s.endDate) (h5 : s.endDate < 9223372036854775808) :
    Consumes (serviceP id) (serviceEncode s)
      (Service.mk id s.weekdays s.startDate s.endDate) := by
  have hm : s.weekdays % 256 = s.weekdays := Nat.mod_eq_of_lt h1
  have e : serviceEncode s = [s.weekdays] ++ (i64be s.startDate ++ (i64be s.endDate ++ [])) := by
    simp [serviceEncode, hm]
  rw [e]
  unfold serviceP
  exact consumes_pbind (consumes_readU8 s.weekdays _)
    (consumes_pbind (consumes_readI64 h2 h3 _)
      (consumes_pbind (consumes_readI64 h4 h5 _) (consumes_ppure _)))

theorem law_seP : Law seP :=
  law_pbind (law_readStr _ _) (fun _ =>
    law_pbind (law_readI64 _) (fun _ =>
      law_pbind (law_readBool _ _) (fun _ => law_ppure _)))

theorem consumes_seP (se : ServiceException) (h1 : se.serviceID.length < U32)
    (h2 : -9223372036854775808 ≤ se.date) (h3 : se.date < 9223372036854775808) :
    Consumes seP (seEncode se) se := by
  have e : seEncode se = lp se.serviceID ++ (i64be se.date ++ (boolByte se.etype ++ [])) := by
    simp [seEncode]
  rw [e]
  unfold seP
  exact consumes_pbind (consumes_readStr h1 _ _)
    (consumes_pbind (consumes_readI64 h2 h3 _)
      (consumes_pbind (consumes_readBool se.etype _ _) (consumes_ppure _)))

theorem law_tripStopP : Law tripStopP :=
  law_pbind (law_readStr _ _) (fun _ =>
    law_pbind (law_readU32 _) (fun _ =>
      law_pbind (law_readU32 _) (fun _ =>
        law_pbind (law_readBool _ _) (fun _ => law_ppure _))))

theorem consumes_tripStopP (ts : TripStop) (h1 : ts.stopID.length + 13 < U32)
    (h2 : ts.arrivalTime < U32) (h3 : ts.departureTime < U32) :
    Consumes tripStopP (tripStopEncode ts) ts := by
  have h1s : ts.stopID.length < U32 := by omega
  have e : tripStopEncode ts = lp ts.stopID ++ (u32be ts.arrivalTime ++
      (u32be ts.departureTime ++ (boolByte ts.timepoint ++ []))) := by
    simp [tripStopEncode]
  rw [e]
  unfold tripStopP
  exact consumes_pbind (consumes_readStr h1s _ _)
    (consumes_pbind (consumes_readU32 h2 _)
      (consumes_pbind (consumes_readU32 h3 _)
        (consumes_pbind (consumes_readBool ts.timepoint _ _) (consumes_ppure _))))

theorem tripStopEncode_length (ts : TripStop) :
    (tripStopEncode ts).length = ts.stopID.length + 13 := by
  cases hb : ts.timepoint <;>
    simp [tripStopEncode, lp, u32be, boolByte, hb]

theorem law_tripStopArrayP : Law tripStopArrayP :=
  law_countedP (law_subParse _ _ _ _) _

theorem consumes_tripStopSub (ts : TripStop) (h1 : ts.stopID.length + 13 < U32)
    (h2 : ts.arrivalTime < U32) (h3 : ts.departureTime < U32) :
    Consumes (subParse tripStopP
      "tripstoparray buffer too small for TripStop data length"
      "tripstoparray buffer too small for TripStop content"
      "tripstop buffer not fully consumed, trailing data exists")
      (u32be (tripStopEncode ts).length ++ tripStopEncode ts) ts :=
  consumes_subParse
    (runFull_of_consumes (consumes_tripStopP ts h1 h2 h3) _)
    (by rw [tripStopEncode_length]; exact h1) _ _

theorem consumes_tripStopArrayAux (l : List TripStop) (h : ∀ ts ∈ l, ts.Valid) :
    Consumes (repeatP (subParse tripStopP
      "tripstoparray buffer too small for TripStop data length"
      "tripstoparray buffer too small for TripStop content"
      "tripstop buffer not fully consumed, trailing data exists") l.length)
      (tripStopArrayEncodeAux l) l := by
  induction l with
  | nil => exact consumes_ppure []
  | cons ts rest ih =>
    have e : tripStopArrayEncodeAux (ts :: rest) =
        (u32be (tripStopEncode ts).length ++ tripStopEncode ts) ++
          (tripStopArrayEncodeAux rest ++ []) := by
      simp [tripStopArrayEncodeAux]
    rw [e]
    have hv := h ts (by simp)
    exact consumes_pbind (consumes_tripStopSub ts hv.1 hv.2.1 hv.2.2)
      (consumes_pbind (ih (fun x hx => h x (by simp [hx]))) (consumes_ppure _))

theorem consumes_tripStopArrayP (l : List TripStop) (hlen : l.length < U32)
    (h : ∀ ts ∈ l, ts.Valid) :
    Consumes tripStopArrayP (tripStopArrayEncode l) l := by
  unfold tripStopArrayP countedP tripStopArrayEncode
  exact consumes_pbind (consumes_readU32 hlen _) (consumes_tripStopArrayAux l h)

theorem law_tripP (id : Key) : Law (tripP id) :=
  law_pbind (law_readStr _ _) (fun _ =>
    law_pbind (law_readStr _ _) (fun _ =>
      law_pbind (law_readStr _ _) (fun _ =>
        law_pbind (law_readBool _ _) (fun _ =>
          law_pbind (law_readStr _ _) (fun _ =>
            law_pbind law_tripStopArrayP (fun _ => law_ppure _))))))

theorem consumes_tripP (id : Key) (t : Trip) (h1 : t.routeID.length < U32)
    (h2 : t.serviceID.length < U32) (h3 : t.shapeID.length < U32)
    (h4 : t.headsign.length < U32) (h5 : t.stops.length < U32)
    (h6 : ∀ ts ∈ t.stops, ts.Valid) :
    Consumes (tripP id) (tripEncode t)
      (Trip.mk id t.routeID t.serviceID t.shapeID t.direction t.headsign t.stops) := by
  have e : tripEncode t = lp t.routeID ++ (lp t.serviceID ++ (lp t.shapeID ++
      (boolByte t.direction ++ (lp t.headsign ++ (tripStopArrayEncode t.stops ++ []))))) := by
    simp [tripEncode]
  rw [e]
  unfold tripP
  exact consumes_pbind (consumes_readStr h1 _ _)
    (consumes_pbind (consumes_readStr h2 _ _)
      (consumes_pbind (consumes_readStr h3 _ _)
        (consumes_pbind (consumes_readBool t.direction _ _)
          (consumes_pbind (consumes_readStr h4 _ _)
            (consumes_pbind (consumes_tripStopArrayP t.stops h5 h6) (consumes_ppure _))))))

/-! ## Facts about the scheduling model -/

theorem hasDay_testBit (flags : Nat) (wd : Int) (h0 : 0 ≤ wd) (h6 : wd ≤ 6) :
    hasDay flags wd = flags.testBit ((wd.toNat + 6) % 7) := by
  unfold hasDay
  rw [if_neg (by omega)]
  have hs : (1 : Nat) <<< ((wd.toNat + 6) % 7) = 2 ^ ((wd.toNat + 6) % 7) := by
    rw [Nat.shiftLeft_eq, one_mul]
  rw [hs]
  have hand := Nat.and_two_pow flags ((wd.toNat + 6) % 7)
  cases hb : flags.testBit ((wd.toNat + 6) % 7) with
  | false =>
    rw [hb] at hand
    simp only [Bool.toNat_false, zero_mul] at hand
    simp [hand]
  | true =>
    rw [hb] at hand
    simp only [Bool.toNat_true, one_mul] at hand
    rw [hand]
    exact decide_eq_true (pow_pos (by norm_num : (0 : Nat) < 2) _).ne'

theorem tripsLoop_service_missing (st : Store) (wd day tS buf : Int) (trip0 : Trip)
    (rest : List Trip) (h : st.services trip0.serviceID = none) :
    tripsLoop st wd day tS buf (trip0 :: rest) [] =
      (.error "service not found", [Lookup.service trip0.serviceID]) := by
  have hrun : serviceRunning st trip0.serviceID wd day = .error "service not found" := by
    unfold serviceRunning getServiceByID
    rw [h]
  simp [tripsLoop, cacheFind, hrun]

theorem tripsLoop_sublist (st : Store) (wd day tS buf : Int) :
    ∀ (trips : List Trip) (cache : List (Key × Bool)) (res : List Trip) (log : List Lookup),
      tripsLoop st wd day tS buf trips cache = (.ok res, log) → res.Sublist trips := by
  intro trips
  induction trips with
  | nil =>
    intro cache res log h
    simp only [tripsLoop, Prod.mk.injEq] at h
    obtain ⟨h1, -⟩ := h
    injection h1 with h2
    subst h2
    exact List.nil_sublist []
  | cons trip rest ih =>
    intro cache res log h
    simp only [tripsLoop] at h
    cases hcf : cacheFind cache trip.serviceID with
    | some running =>
      rw [hcf] at h
      simp only at h
      split at h
      · simp only [Prod.mk.injEq] at h
        obtain ⟨h1, -⟩ := h
        cases hrec : tripsLoop st wd day tS buf rest cache with
        | mk r1 l1 =>
          rw [hrec] at h1
          cases r1 with
          | error e => simp [Except.map] at h1
          | ok l =>
            simp only [Except.map, Except.ok.injEq] at h1
            subst h1
            exact List.Sublist.cons₂ trip (ih cache l l1 hrec)
      · exact List.Sublist.cons trip (ih cache res log h)
    | none =>
      rw [hcf] at h
      simp only at h
      cases hsr : serviceRunning st trip.serviceID wd day with
      | error e =>
        rw [hsr] at h
        simp at h
      | ok running =>
        rw [hsr] at h
        simp only at h
        split at h
        · simp only [Prod.mk.injEq] at h
          obtain ⟨h1, -⟩ := h
          cases hrec : tripsLoop st wd day tS buf rest ((trip.serviceID, running) :: cache) with
          | mk r1 l1 =>
            rw [hrec] at h1
            cases r1 with
            | error e => simp [Except.map] at h1
            | ok l =>
              simp only [Except.map, Except.ok.injEq] at h1
              subst h1
              exact List.Sublist.cons₂ trip
                (ih ((trip.serviceID, running) :: cache) l l1 hrec)
        · simp only [Prod.mk.injEq] at h
          obtain ⟨h1, -⟩ := h
          cases hrec : tripsLoop st wd day tS buf rest ((trip.serviceID, running) :: cache) with
          | mk r1 l1 =>
            rw [hrec] at h1
            simp only at h1
            subst h1
            exact List.Sublist.cons trip
              (ih ((trip.serviceID, running) :: cache) res l1 hrec)

theorem keyArrayEncodeAux_eq (ka : List Key) :
    keyArrayEncodeAux ka = (ka.map lp).flatten := by
  induction ka with
  | nil => rfl
  | cons k rest ih => simp [keyArrayEncodeAux, ih]

theorem coordArrayEncodeAux_eq (ca : List Coordinate) :
    coordArrayEncodeAux ca = (ca.map coordEncode).flatten := by
  induction ca with
  | nil => rfl
  | cons c rest ih => simp [coordArrayEncodeAux, ih]

theorem tripStopArrayEncodeAux_eq (tsa : List TripStop) :
    tripStopArrayEncodeAux tsa =
      (tsa.map (fun ts => u32be (tripStopEncode ts).length ++ tripStopEncode ts)).flatten := by
  induction tsa with
  | nil => rfl
  | cons ts rest ih => simp [tripStopArrayEncodeAux, ih]

/-! ## Claims -/

/-- C1: the spec requires the concrete midnight-crossing scenario — a trip
with first-stop arrival 85800 and last-stop departure 86700 on a Monday-only
service, queried at Tuesday 00:02 local time with buffer 0 — to be included.
The code excludes it: the interval test does accept the query second through
the trip's window shifted back one day (second conjunct), but the
running-service test evaluates the weekday bitmask at the query instant's own
weekday (Tuesday, Go weekday 2), for which the Monday-only bitmask bit is
clear (third conjunct), so `GetCurrentTripsWithBuffer` returns the empty
result (first conjunct). -/
theorem C1_midnight_query_excludes_trip :
    (getCurrentTripsWithBuffer storeMonday [tripNight] tTuesday0002 0).1 = .ok [] ∧
    isTripWithinInterval ((tripNight.startTime % 86400 : Nat) : Int)
      ((tripNight.endTime % 86400 : Nat) : Int) ((tTuesday0002 + 0) % 86400) 0 = true ∧
    hasDay svcMonday.weekdays (((tTuesday0002 + 0) / 86400 + 4) % 7) = false :=
  ⟨rfl, by decide, by decide⟩

/-- C2 counterexample: a trip of a Monday-only service whose validity range
starts 2025-01-01, queried at a Monday noon in 1970 — before the range — is
still returned, refuting the claim that a trip is returned only when the
query date falls within the governing service's date range. -/
theorem C2_counterexample_date_range_ignored :
    (getCurrentTripsWithBuffer storeMonday2025 [tripNoon] tMondayNoon 0).1 = .ok [tripNoon] ∧
    tMondayNoon < svcMonday2025.startDate :=
  ⟨rfl, by decide⟩

/-- C2 amended: the running-service test of `GetCurrentTripsWithBuffer` never
consults the service's `[startDate, endDate]` range: whenever the weekday bit
for the query instant's weekday is set and no exception record exists for
that date, the service counts as running — with no condition on the dates. -/
theorem C2_running_ignores_date_range :
    ∀ (st : Store) (sid : Key) (wd day : Int) (sv : Service),
      getServiceByID st sid = .ok sv → hasDay sv.weekdays wd = true →
      st.exceptions sid day = none →
      serviceRunning st sid wd day = .ok true := by
  intro st sid wd day sv hsv hday hnone
  have hexc : getServiceException st sid day = .error "service exception not found" := by
    unfold getServiceException
    rw [hnone]
  unfold serviceRunning
  rw [hsv]
  dsimp only
  rw [hexc]
  simp [excToOption, hday]

/-- Witness for the amended C2: the 2025-only Monday service, queried on a
Monday day number (4, i.e. 1970-01-05) far outside its date range, is
running. -/
theorem C2_running_ignores_date_range_witness :
    getServiceByID storeMonday2025 kS = .ok svcMonday2025 ∧
    hasDay svcMonday2025.weekdays 1 = true ∧
    storeMonday2025.exceptions kS 4 = none ∧
    tMondayNoon < svcMonday2025.startDate ∧
    serviceRunning storeMonday2025 kS 1 4 = .ok true :=
  ⟨rfl, by decide, rfl, by decide,
   C2_running_ignores_date_range storeMonday2025 kS 1 4 svcMonday2025 rfl (by decide) rfl⟩

/-- C3: in the running-service test, a Removed-type exception found for the
service and the query instant's date forces not-running regardless of the
weekday bitmask; an Added-type exception forces running; and with no
exception record the service runs exactly when the weekday bit of the query
instant's weekday — Monday=bit0 through Sunday=bit6 (Go weekdays
1,2,3,4,5,6,0 respectively) — is set in the bitmask. -/
theorem C3_exception_override_semantics :
    (∀ (st : Store) (sid : Key) (wd day : Int) (exc : ServiceException) (sv : Service),
      getServiceByID st sid = .ok sv → getServiceException st sid day = .ok exc →
      exc.etype = RemovedExceptionType → serviceRunning st sid wd day = .ok false) ∧
    (∀ (st : Store) (sid : Key) (wd day : Int) (exc : ServiceException) (sv : Service),
      getServiceByID st sid = .ok sv → getServiceException st sid day = .ok exc →
      exc.etype = AddedExceptionType → serviceRunning st sid wd day = .ok true) ∧
    (∀ (st : Store) (sid : Key) (wd day : Int) (sv : Service),
      getServiceByID st sid = .ok sv → st.exceptions sid day = none →
      ((wd = 1 → serviceRunning st sid wd day = .ok (sv.weekdays.testBit 0)) ∧
       (wd = 2 → serviceRunning st sid wd day = .ok (sv.weekdays.testBit 1)) ∧
       (wd = 3 → serviceRunning st sid wd day = .ok (sv.weekdays.testBit 2)) ∧
       (wd = 4 → serviceRunning st sid wd day = .ok (sv.weekdays.testBit 3)) ∧
       (wd = 5 → serviceRunning st sid wd day = .ok (sv.weekdays.testBit 4)) ∧
       (wd = 6 → serviceRunning st sid wd day = .ok (sv.weekdays.testBit 5)) ∧
       (wd = 0 → serviceRunning st sid wd day = .ok (sv.weekdays.testBit 6)))) := by
  refine ⟨?_, ?_, ?_⟩
  · intro st sid wd day exc sv hsv hexc htype
    unfold serviceRunning
    rw [hsv]
    dsimp only
    rw [hexc]
    simp [excToOption, htype, RemovedExceptionType, AddedExceptionType]
  · intro st sid wd day exc sv hsv hexc htype
    unfold serviceRunning
    rw [hsv]
    dsimp only
    rw [hexc]
    simp [excToOption, htype, RemovedExceptionType, AddedExceptionType]
  · intro st sid wd day sv hsv hnone
    have hexc : getServiceException st sid day = .error "service exception not found" := by
      unfold getServiceException
      rw [hnone]
    have hrun : serviceRunning st sid wd day = .ok (hasDay sv.weekdays wd) := by
      unfold serviceRunning
      rw [hsv]
      dsimp only
      rw [hexc]
      cases hhd : hasDay sv.weekdays wd <;> simp [excToOption, hhd]
    refine ⟨?_, ?_, ?_, ?_, ?_, ?_, ?_⟩ <;> intro hwd <;> subst hwd <;>
      rw [hrun, hasDay_testBit sv.weekdays _ (by norm_num) (by norm_num)] <;>
      exact congrArg (fun i => Except.ok (sv.weekdays.testBit i)) (by decide)

/-- Witness for C3: on the store holding a Removed-type exception for
`(kS, day 4)`, the Monday-only service is not running on that Monday. -/
theorem C3_exception_override_semantics_witness :
    getServiceByID storeRemovedExc kS = .ok svcMonday ∧
    getServiceException storeRemovedExc kS 4 = .ok excRemoved ∧
    excRemoved.etype = RemovedExceptionType ∧
    serviceRunning storeRemovedExc kS 1 4 = .ok false :=
  ⟨rfl, rfl, rfl,
   C3_exception_override_semantics.1 storeRemovedExc kS 1 4 excRemoved svcMonday rfl rfl rfl⟩

/-- C9: on an empty candidate trip list, `GetCurrentTripsWithBuffer` returns
the empty result for every store, instant and buffer, and its lookup log is
empty: no route, agency, timezone, service or exception lookup is
performed. -/
theorem C9_empty_input_short_circuit :
    ∀ (st : Store) (t buffer : Int),
      getCurrentTripsWithBuffer st [] t buffer = (.ok [], []) :=
  fun _ _ _ => rfl

/-- C10: every successful `GetCurrentTripsWithBuffer` call returns a
subsequence of the input list: each returned trip is an input element, the
relative order is preserved, and no input occurrence is used twice. -/
theorem C10_result_subsequence :
    ∀ (st : Store) (trips : List Trip) (t buffer : Int) (res : List Trip),
      (getCurrentTripsWithBuffer st trips t buffer).1 = .ok res → res.Sublist trips := by
  intro st trips t buffer res h
  cases trips with
  | nil =>
    simp only [getCurrentTripsWithBuffer, Except.ok.injEq] at h
    subst h
    exact List.nil_sublist []
  | cons trip0 rest =>
    simp only [getCurrentTripsWithBuffer] at h
    cases hr : getRouteByID st trip0.routeID with
    | error e => rw [hr] at h; simp at h
    | ok route =>
      rw [hr] at h
      dsimp only at h
      cases ha : getAgencyByID st route.agencyID with
      | error e => rw [ha] at h; simp at h
      | ok agency =>
        rw [ha] at h
        dsimp only at h
        cases htz : st.tzdb agency.timezone with
        | none => rw [htz] at h; simp at h
        | some off =>
          rw [htz] at h
          dsimp only at h
          cases hloop : tripsLoop st (((t + off) / 86400 + 4) % 7) ((t + off) / 86400)
              ((t + off) % 86400) buffer (trip0 :: rest) [] with
          | mk r1 l1 =>
            rw [hloop] at h
            dsimp only at h
            subst h
            exact tripsLoop_sublist st (((t + off) / 86400 + 4) % 7) ((t + off) / 86400)
              ((t + off) % 86400) buffer (trip0 :: rest) [] res l1 hloop

/-- Witness for C10 at a concrete successful call: the noon trip is returned
and forms a subsequence of the singleton input. -/
theorem C10_result_subsequence_witness :
    (getCurrentTripsWithBuffer storeMonday2025 [tripNoon] tMondayNoon 0).1 = .ok [tripNoon] ∧
    List.Sublist [tripNoon] [tripNoon] :=
  ⟨rfl, C10_result_subsequence storeMonday2025 [tripNoon] tMondayNoon 0 [tripNoon] rfl⟩

/-- C4: for every entity type — Agency, Route, Stop, Service,
ServiceException, Shape, Trip — and every valid entity value under its store
key, decoding the encoding succeeds and returns the same entity.  Validity is
the wire-representable range: the entity's identifier equals the store key,
strings and sequences fit a 4-byte length, enum bytes fit one byte, times fit
`uint32`, dates fit `int64`, and coordinate bit patterns fit `uint64`. -/
theorem C4_decode_encode_roundtrip :
    (∀ (k : Key) (a : Agency), a.Valid k → agencyDecode k (agencyEncode a) = .ok a) ∧
    (∀ (k : Key) (r : Route), r.Valid k → routeDecode k (routeEncode r) = .ok r) ∧
    (∀ (k : Key) (s : Stop), s.Valid k → stopDecode k (stopEncode s) = .ok s) ∧
    (∀ (k : Key) (sv : Service), sv.Valid k → serviceDecode k (serviceEncode sv) = .ok sv) ∧
    (∀ (se : ServiceException), se.Valid → seDecode (seEncode se) = .ok se) ∧
    (∀ (k : Key) (sh : Shape), sh.Valid k → shapeDecode k (shapeEncode sh) = .ok sh) ∧
    (∀ (k : Key) (t : Trip), t.Valid k → tripDecode k (tripEncode t) = .ok t) := by
  refine ⟨?_, ?_, ?_, ?_, ?_, ?_, ?_⟩
  · rintro k ⟨aid, nm, url, tz⟩ ⟨hid, h1, h2, h3⟩
    subst hid
    exact runFull_of_consumes (consumes_agencyP aid ⟨aid, nm, url, tz⟩ h1 h2 h3) _
  · rintro k ⟨rid, ag, nm, ty, co, sh, stp⟩ ⟨hid, h1, h2, h3, h4, h5, h6, h7⟩
    subst hid
    exact runFull_of_consumes
      (consumes_routeP rid ⟨rid, ag, nm, ty, co, sh, stp⟩ h1 h2 h3 h4 h5 h6 h7) _
  · rintro k ⟨sid, co, nm, pid, loc, lt, sm⟩ ⟨hid, h1, h2, h3, h4, h5, h6⟩
    subst hid
    exact runFull_of_consumes
      (consumes_stopP sid ⟨sid, co, nm, pid, loc, lt, sm⟩ h1 h2 h3 h4 h5 h6) _
  · rintro k ⟨vid, wk, sd, ed⟩ ⟨hid, h1, h2, h3, h4, h5⟩
    subst hid
    exact runFull_of_consumes
      (consumes_serviceP vid ⟨vid, wk, sd, ed⟩ h1 h2 h3 h4 h5) _
  · rintro se ⟨h1, h2, h3⟩
    exact runFull_of_consumes (consumes_seP se h1 h2 h3) _
  · rintro k ⟨sid, coords⟩ ⟨hid, hlen, hval⟩
    subst hid
    unfold shapeDecode shapeEncode
    rw [runFull_of_consumes (consumes_coordArrayP coords hlen hval) _]
  · rintro k ⟨tid, rid, svc, shp, dir, hsn, stops⟩ ⟨hid, h1, h2, h3, h4, h5, h6⟩
    subst hid
    exact runFull_of_consumes
      (consumes_tripP tid ⟨tid, rid, svc, shp, dir, hsn, stops⟩ h1 h2 h3 h4 h5 h6) _

/-- Witness for C4 at concrete entities exercising empty strings, empty
sequences, boundary coordinates (the IEEE-754 bit patterns of -90, 90, 180
and -180 degrees), a negative date, and both enum values. -/
theorem C4_decode_encode_roundtrip_witness :
    ((Agency.mk [65] [] [] [85, 84, 67]).Valid [65] ∧
      agencyDecode [65] (agencyEncode (Agency.mk [65] [] [] [85, 84, 67])) =
        .ok (Agency.mk [65] [] [] [85, 84, 67])) ∧
    ((Route.mk [70] [65] [76, 105, 110, 101] 3 [] [83] [[1], [2]]).Valid [70] ∧
      routeDecode [70] (routeEncode (Route.mk [70] [65] [76, 105, 110, 101] 3 [] [83] [[1], [2]])) =
        .ok (Route.mk [70] [65] [76, 105, 110, 101] 3 [] [83] [[1], [2]])) ∧
    ((Stop.mk [66] [] [] [] (Coordinate.mk 13859405640767635456 4640537203540230144) 4 3).Valid [66] ∧
      stopDecode [66]
          (stopEncode (Stop.mk [66] [] [] [] (Coordinate.mk 13859405640767635456 4640537203540230144) 4 3)) =
        .ok (Stop.mk [66] [] [] [] (Coordinate.mk 13859405640767635456 4640537203540230144) 4 3)) ∧
    ((Service.mk [68] 127 (-86400) 4102444800).Valid [68] ∧
      serviceDecode [68] (serviceEncode (Service.mk [68] 127 (-86400) 4102444800)) =
        .ok (Service.mk [68] 127 (-86400) 4102444800)) ∧
    ((ServiceException.mk [69] 1735689600 true).Valid ∧
      seDecode (seEncode (ServiceException.mk [69] 1735689600 true)) =
        .ok (ServiceException.mk [69] 1735689600 true)) ∧
    ((Shape.mk [67] [Coordinate.mk 4636033603912859648 13863909240395005952]).Valid [67] ∧
      shapeDecode [67] (shapeEncode (Shape.mk [67] [Coordinate.mk 4636033603912859648 13863909240395005952])) =
        .ok (Shape.mk [67] [Coordinate.mk 4636033603912859648 13863909240395005952])) ∧
    ((Trip.mk [71] [70] [68] [83] true [72, 105] [TripStop.mk [1] 85800 86700 true]).Valid [71] ∧
      tripDecode [71] (tripEncode (Trip.mk [71] [70] [68] [83] true [72, 105] [TripStop.mk [1] 85800 86700 true])) =
        .ok (Trip.mk [71] [70] [68] [83] true [72, 105] [TripStop.mk [1] 85800 86700 true])) :=
  ⟨⟨by decide, C4_decode_encode_roundtrip.1 [65] _ (by decide)⟩,
   ⟨by decide, C4_decode_encode_roundtrip.2.1 [70] _ (by decide)⟩,
   ⟨by decide, C4_decode_encode_roundtrip.2.2.1 [66] _ (by decide)⟩,
   ⟨by decide, C4_decode_encode_roundtrip.2.2.2.1 [68] _ (by decide)⟩,
   ⟨by decide, C4_decode_encode_roundtrip.2.2.2.2.1 _ (by decide)⟩,
   ⟨by decide, C4_decode_encode_roundtrip.2.2.2.2.2.1 [67] _ (by decide)⟩,
   ⟨by decide, C4_decode_encode_roundtrip.2.2.2.2.2.2 [71] _ (by decide)⟩⟩

/-- C5: for every entity type and valid entity, decoding fails (with an
error, never a silent truncation) on the encoding truncated by one or more
trailing bytes, and on the encoding extended by one or more trailing bytes:
the parse of a strict prefix runs out of buffer at some bounds check, and a
parse that consumes the whole canonical encoding rejects leftover bytes as
trailing data. -/
theorem C5_corruption_detection :
    (∀ (k : Key) (a : Agency), a.Valid k →
      (∀ m, m < (agencyEncode a).length →
        ∃ err, agencyDecode k ((agencyEncode a).take m) = .error err) ∧
      (∀ extra, extra ≠ [] → ∃ err, agencyDecode k (agencyEncode a ++ extra) = .error err)) ∧
    (∀ (k : Key) (r : Route), r.Valid k →
      (∀ m, m < (routeEncode r).length →
        ∃ err, routeDecode k ((routeEncode r).take m) = .error err) ∧
      (∀ extra, extra ≠ [] → ∃ err, routeDecode k (routeEncode r ++ extra) = .error err)) ∧
    (∀ (k : Key) (s : Stop), s.Valid k →
      (∀ m, m < (stopEncode s).length →
        ∃ err, stopDecode k ((stopEncode s).take m) = .error err) ∧
      (∀ extra, extra ≠ [] → ∃ err, stopDecode k (stopEncode s ++ extra) = .error err)) ∧
    (∀ (k : Key) (sv : Service), sv.Valid k →
      (∀ m, m < (serviceEncode sv).length →
        ∃ err, serviceDecode k ((serviceEncode sv).take m) = .error err) ∧
      (∀ extra, extra ≠ [] → ∃ err, serviceDecode k (serviceEncode sv ++ extra) = .error err)) ∧
    (∀ (se : ServiceException), se.Valid →
      (∀ m, m < (seEncode se).length →
        ∃ err, seDecode ((seEncode se).take m) = .error err) ∧
      (∀ extra, extra ≠ [] → ∃ err, seDecode (seEncode se ++ extra) = .error err)) ∧
    (∀ (k : Key) (sh : Shape), sh.Valid k →
      (∀ m, m < (shapeEncode sh).length →
        ∃ err, shapeDecode k ((shapeEncode sh).take m) = .error err) ∧
      (∀ extra, extra ≠ [] → ∃ err, shapeDecode k (shapeEncode sh ++ extra) = .error err)) ∧
    (∀ (k : Key) (t : Trip), t.Valid k →
      (∀ m, m < (tripEncode t).length →
        ∃ err, tripDecode k ((tripEncode t).take m) = .error err) ∧
      (∀ extra, extra ≠ [] → ∃ err, tripDecode k (tripEncode t ++ extra) = .error err)) := by
  refine ⟨?_, ?_, ?_, ?_, ?_, ?_, ?_⟩
  · intro k a hv
    obtain ⟨-, h1, h2, h3⟩ := hv
    exact ⟨fun m hm => runFull_truncate (law_agencyP k) (consumes_agencyP k a h1 h2 h3) hm _,
      fun extra hne => ⟨_, runFull_extend (consumes_agencyP k a h1 h2 h3) hne _⟩⟩
  · intro k r hv
    obtain ⟨-, h1, h2, h3, h4, h5, h6, h7⟩ := hv
    exact ⟨fun m hm =>
        runFull_truncate (law_routeP k) (consumes_routeP k r h1 h2 h3 h4 h5 h6 h7) hm _,
      fun extra hne => ⟨_, runFull_extend (consumes_routeP k r h1 h2 h3 h4 h5 h6 h7) hne _⟩⟩
  · intro k s hv
    obtain ⟨-, h1, h2, h3, h4, h5, h6⟩ := hv
    exact ⟨fun m hm =>
        runFull_truncate (law_stopP k) (consumes_stopP k s h1 h2 h3 h4 h5 h6) hm _,
      fun extra hne => ⟨_, runFull_extend (consumes_stopP k s h1 h2 h3 h4 h5 h6) hne _⟩⟩
  · intro k sv hv
    obtain ⟨-, h1, h2, h3, h4, h5⟩ := hv
    exact ⟨fun m hm =>
        runFull_truncate (law_serviceP k) (consumes_serviceP k sv h1 h2 h3 h4 h5) hm _,
      fun extra hne => ⟨_, runFull_extend (consumes_serviceP k sv h1 h2 h3 h4 h5) hne _⟩⟩
  · intro se hv
    obtain ⟨h1, h2, h3⟩ := hv
    exact ⟨fun m hm => runFull_truncate law_seP (consumes_seP se h1 h2 h3) hm _,
      fun extra hne => ⟨_, runFull_extend (consumes_seP se h1 h2 h3) hne _⟩⟩
  · intro k sh hv
    obtain ⟨-, hlen, hval⟩ := hv
    constructor
    · intro m hm
      obtain ⟨e, he⟩ := runFull_truncate law_coordArrayP
        (consumes_coordArrayP sh.coordinates hlen hval) hm
        "coordinatearray buffer not fully consumed, trailing data exists"
      refine ⟨e, ?_⟩
      unfold shapeDecode
      rw [show shapeEncode sh = coordArrayEncode sh.coordinates from rfl, he]
    · intro extra hne
      refine ⟨"coordinatearray buffer not fully consumed, trailing data exists", ?_⟩
      unfold shapeDecode
      rw [show shapeEncode sh = coordArrayEncode sh.coordinates from rfl,
        runFull_extend (consumes_coordArrayP sh.coordinates hlen hval) hne _]
  · intro k t hv
    obtain ⟨-, h1, h2, h3, h4, h5, h6⟩ := hv
    exact ⟨fun m hm =>
        runFull_truncate (law_tripP k) (consumes_tripP k t h1 h2 h3 h4 h5 h6) hm _,
      fun extra hne => ⟨_, runFull_extend (consumes_tripP k t h1 h2 h3 h4 h5 h6) hne _⟩⟩

/-- Witness for C5 at concrete entities: each encoding truncated by its last
byte fails to decode, and each encoding with one appended zero byte fails to
decode. -/
theorem C5_corruption_detection_witness :
    ((Agency.mk [] [] [] []).Valid [] ∧
      (∃ err, agencyDecode [] ((agencyEncode (Agency.mk [] [] [] [])).take 11) = .error err) ∧
      (∃ err, agencyDecode [] (agencyEncode (Agency.mk [] [] [] []) ++ [0]) = .error err)) ∧
    ((Route.mk [] [] [] 0 [] [] []).Valid [] ∧
      (∃ err, routeDecode [] ((routeEncode (Route.mk [] [] [] 0 [] [] [])).take 20) = .error err) ∧
      (∃ err, routeDecode [] (routeEncode (Route.mk [] [] [] 0 [] [] []) ++ [0]) = .error err)) ∧
    ((Stop.mk [] [] [] [] (Coordinate.mk 0 0) 0 0).Valid [] ∧
      (∃ err, stopDecode [] ((stopEncode (Stop.mk [] [] [] [] (Coordinate.mk 0 0) 0 0)).take 29) = .error err) ∧
      (∃ err, stopDecode [] (stopEncode (Stop.mk [] [] [] [] (Coordinate.mk 0 0) 0 0) ++ [0]) = .error err)) ∧
    ((Service.mk [] 0 0 0).Valid [] ∧
      (∃ err, serviceDecode [] ((serviceEncode (Service.mk [] 0 0 0)).take 16) = .error err) ∧
      (∃ err, serviceDecode [] (serviceEncode (Service.mk [] 0 0 0) ++ [0]) = .error err)) ∧
    ((ServiceException.mk [] 0 false).Valid ∧
      (∃ err, seDecode ((seEncode (ServiceException.mk [] 0 false)).take 12) = .error err) ∧
      (∃ err, seDecode (seEncode (ServiceException.mk [] 0 false) ++ [0]) = .error err)) ∧
    ((Shape.mk [] []).Valid [] ∧
      (∃ err, shapeDecode [] ((shapeEncode (Shape.mk [] [])).take 3) = .error err) ∧
      (∃ err, shapeDecode [] (shapeEncode (Shape.mk [] []) ++ [0]) = .error err)) ∧
    ((Trip.mk [] [] [] [] false [] []).Valid [] ∧
      (∃ err, tripDecode [] ((tripEncode (Trip.mk [] [] [] [] false [] [])).take 20) = .error err) ∧
      (∃ err, tripDecode [] (tripEncode (Trip.mk [] [] [] [] false [] []) ++ [0]) = .error err)) :=
  ⟨⟨by decide, (C5_corruption_detection.1 [] _ (by decide)).1 11 (by decide),
    (C5_corruption_detection.1 [] _ (by decide)).2 [0] (by decide)⟩,
   ⟨by decide, (C5_corruption_detection.2.1 [] _ (by decide)).1 20 (by decide),
    (C5_corruption_detection.2.1 [] _ (by decide)).2 [0] (by decide)⟩,
   ⟨by decide, (C5_corruption_detection.2.2.1 [] _ (by decide)).1 29 (by decide),
    (C5_corruption_detection.2.2.1 [] _ (by decide)).2 [0] (by decide)⟩,
   ⟨by decide, (C5_corruption_detection.2.2.2.1 [] _ (by decide)).1 16 (by decide),
    (C5_corruption_detection.2.2.2.1 [] _ (by decide)).2 [0] (by decide)⟩,
   ⟨by decide, (C5_corruption_detection.2.2.2.2.1 _ (by decide)).1 12 (by decide),
    (C5_corruption_detection.2.2.2.2.1 _ (by decide)).2 [0] (by decide)⟩,
   ⟨by decide, (C5_corruption_detection.2.2.2.2.2.1 [] _ (by decide)).1 3 (by decide),
    (C5_corruption_detection.2.2.2.2.2.1 [] _ (by decide)).2 [0] (by decide)⟩,
   ⟨by decide, (C5_corruption_detection.2.2.2.2.2.2 [] _ (by decide)).1 20 (by decide),
    (C5_corruption_detection.2.2.2.2.2.2 [] _ (by decide)).2 [0] (by decide)⟩⟩

/-- C6 counterexample: for trip-stop lists the encoded layout is NOT the
4-byte count followed directly by each element's own encoding: the encoder
writes an extra 4-byte byte-length before each element.  The singleton list
of the zero trip stop exhibits the difference. -/
theorem C6_counterexample_tripstop_layout :
    tripStopArrayEncode [TripStop.mk [] 0 0 false] ≠
      u32be 1 ++ tripStopEncode (TripStop.mk [] 0 0 false) := by
  decide

/-- C6 amended: key lists and coordinate lists are encoded exactly as a
4-byte element count followed by each element's own encoding concatenated in
order; trip-stop lists are encoded as a 4-byte count followed, for each
element, by a 4-byte length of the element's encoding and then the encoding
itself. -/
theorem C6_sequence_layout :
    (∀ ka : List Key,
      keyArrayEncode ka = u32be ka.length ++ (ka.map (fun k => u32be k.length ++ k)).flatten) ∧
    (∀ ca : List Coordinate,
      coordArrayEncode ca = u32be ca.length ++ (ca.map coordEncode).flatten) ∧
    (∀ tsa : List TripStop,
      tripStopArrayEncode tsa = u32be tsa.length ++
        (tsa.map (fun ts => u32be (tripStopEncode ts).length ++ tripStopEncode ts)).flatten) := by
  refine ⟨?_, ?_, ?_⟩
  · intro ka
    unfold keyArrayEncode
    rw [keyArrayEncodeAux_eq]
    rfl
  · intro ca
    unfold coordArrayEncode
    rw [coordArrayEncodeAux_eq]
  · intro tsa
    unfold tripStopArrayEncode
    rw [tripStopArrayEncodeAux_eq]

/-- C7 counterexample: loading a container whose metadata version is 1 while
the code's `CurrentVersion` is 2 returns an error, but the GTFS struct is not
left unchanged: the opened database handle has already been assigned to its
`db` field before the version check, so the failed load leaves a partially
initialized handle behind. -/
theorem C7_counterexample_handle_assigned :
    (fromDB gZero (some dbVersion1)).2 = some "GTFS database version mismatch" ∧
    (fromDB gZero (some dbVersion1)).1.db = some dbVersion1 ∧
    gZero.db = none :=
  ⟨rfl, rfl, rfl⟩

/-- C7 amended: when the metadata version parses to a value different from
`CurrentVersion`, `FromDB` fails with an error and leaves `Version` and
`Created` unpopulated — but the opened database handle has already been
stored in the struct's `db` field before the version check. -/
theorem C7_version_mismatch_fails :
    ∀ (g : GTFSState) (db : BoltDB) (b : MetaBucket) (vb : Bytes) (v : Int),
      db.metaBucket = some b → b.version = some vb → atoi vb = some v →
      v ≠ CurrentVersion →
      (fromDB g (some db)).2 = some "GTFS database version mismatch" ∧
      (fromDB g (some db)).1.version = g.version ∧
      (fromDB g (some db)).1.created = g.created ∧
      (fromDB g (some db)).1.db = some db := by
  intro g db b vb v hb hv hat hne
  unfold fromDB
  dsimp only
  rw [hb]
  dsimp only
  rw [hv]
  dsimp only
  rw [hat]
  dsimp only
  rw [if_pos hne]
  exact ⟨rfl, rfl, rfl, rfl⟩

/-- Witness for the amended C7 at the concrete version-1 container. -/
theorem C7_version_mismatch_fails_witness :
    dbVersion1.metaBucket = some (MetaBucket.mk (some [49]) (some [48])) ∧
    atoi [49] = some 1 ∧
    (fromDB gZero (some dbVersion1)).2 = some "GTFS database version mismatch" ∧
    (fromDB gZero (some dbVersion1)).1.version = gZero.version ∧
    (fromDB gZero (some dbVersion1)).1.created = gZero.created ∧
    (fromDB gZero (some dbVersion1)).1.db = some dbVersion1 := by
  have h := C7_version_mismatch_fails gZero dbVersion1
    (MetaBucket.mk (some [49]) (some [48])) [49] 1 rfl rfl rfl (by decide)
  exact ⟨rfl, rfl, h.1, h.2.1, h.2.2.1, h.2.2.2⟩

/-- C8 counterexample: a present-but-malformed ServiceException record (the
single byte 255 under the key of the evaluated service and day) does NOT make
`GetCurrentTripsWithBuffer` return an error: the lookup's error is discarded
(`exception, _ := g.GetServiceException(...)`), the exception is treated as
absent, and the call succeeds returning the trip. -/
theorem C8_counterexample_malformed_exception_ignored :
    storeMalformedExc.exceptions kS 4 = some [255] ∧
    seDecode [255] = .error "buffer too small for ServiceID length" ∧
    (getCurrentTripsWithBuffer storeMalformedExc [tripNoon] tMondayNoon 0).1 = .ok [tripNoon] :=
  ⟨rfl, rfl, rfl⟩

/-- C8 amended: a missing Service record for an evaluated trip makes the
whole call fail with the service lookup's error; an error from the
ServiceException lookup — whether the record is missing or malformed — is
discarded, and the service's running flag falls back to the plain weekday
test as if no exception existed. -/
theorem C8_missing_service_errors_exception_errors_ignored :
    (∀ (st : Store) (trips : List Trip) (t buffer : Int) (trip0 : Trip)
        (rest : List Trip) (route : Route) (agency : Agency) (off : Int),
      trips = trip0 :: rest →
      getRouteByID st trip0.routeID = .ok route →
      getAgencyByID st route.agencyID = .ok agency →
      st.tzdb agency.timezone = some off →
      st.services trip0.serviceID = none →
      (getCurrentTripsWithBuffer st trips t buffer).1 = .error "service not found") ∧
    (∀ (st : Store) (sid : Key) (wd day : Int) (sv : Service) (bs : Bytes) (err : String),
      getServiceByID st sid = .ok sv →
      st.exceptions sid day = some bs → seDecode bs = .error err →
      serviceRunning st sid wd day = .ok (hasDay sv.weekdays wd)) := by
  constructor
  · intro st trips t buffer trip0 rest route agency off htr hroute hagency htz hsvc
    subst htr
    simp only [getCurrentTripsWithBuffer]
    rw [hroute]
    dsimp only
    rw [hagency]
    dsimp only
    rw [htz]
    dsimp only
    rw [tripsLoop_service_missing st (((t + off) / 86400 + 4) % 7) ((t + off) / 86400)
      ((t + off) % 86400) buffer trip0 rest hsvc]
  · intro st sid wd day sv bs err hsv hbs hdec
    have hexc : getServiceException st sid day = .error err := by
      unfold getServiceException
      rw [hbs]
      dsimp only
      rw [hdec]
    unfold serviceRunning
    rw [hsv]
    dsimp only
    rw [hexc]
    cases hhd : hasDay sv.weekdays wd <;> simp [excToOption, hhd]

/-- Witness for the amended C8: with the service record removed from the
store the whole call errors, and with the malformed exception record the
running flag equals the plain weekday test. -/
theorem C8_missing_service_witness :
    storeNoService.services tripNoon.serviceID = none ∧
    (getCurrentTripsWithBuffer storeNoService [tripNoon] tMondayNoon 0).1 =
      .error "service not found" ∧
    seDecode [255] = .error "buffer too small for ServiceID length" ∧
    serviceRunning storeMalformedExc kS 1 4 = .ok (hasDay svcMonday.weekdays 1) :=
  ⟨rfl,
   C8_missing_service_errors_exception_errors_ignored.1 storeNoService [tripNoon]
     tMondayNoon 0 tripNoon [] routeR agencyA 0 rfl rfl rfl rfl rfl,
   rfl,
   C8_missing_service_errors_exception_errors_ignored.2 storeMalformedExc kS 1 4 svcMonday
     [255] "buffer too small for ServiceID length" rfl rfl rfl⟩

end GtfsGo
